import Mathlib

/-!
Verification of the combat core of the TimeGame2D3D repository.

The combat entities of `src/js/player.js`, `src/js/playerBase.js`,
`src/js/enemy.js` and `src/js/game.js` are embedded shallowly: every
numeric quantity is a rational (`ℚ`), positions are rational 3-vectors,
and each JavaScript method becomes a Lean function on an explicit state
record.  Rendering, meshes, particles and other purely visual calls of
the source are not part of the state; every field the combat logic reads
or writes is.

The source compares Euclidean distances (`THREE.Vector3.distanceTo`)
against nonnegative constants only, so each comparison `dist < c` is
embedded as the equivalent `distSq < c ^ 2`, which keeps the whole
development rational and decidable.  The one irrational quantity of the
combat core, the normalized direction `Δ / ‖Δ‖` used for chase movement
and for laying out bounce landings, is supplied to each step as an
explicit input (`unitDir`); no theorem below depends on its value.
-/

namespace TimeGame

/-- Rational 3-vector standing for `THREE.Vector3` (the combat core keeps
the vertical component of every combatant position at `0`; the player's
may be nonzero while jumping, so we keep all three coordinates). -/
structure Vec3 where
  x : ℚ
  y : ℚ
  z : ℚ
deriving DecidableEq, Repr

/-- Squared Euclidean distance; `p.distanceTo q < c` of the source is
embedded as `Vec3.distSq p q < c ^ 2` (all thresholds are nonnegative). -/
def Vec3.distSq (p q : Vec3) : ℚ :=
  (p.x - q.x) ^ 2 + (p.y - q.y) ^ 2 + (p.z - q.z) ^ 2

/-! ## The warrior player (defender of the parry contract)

State of `Player` (`src/js/player.js`): health plus the `parry` and
`potion` ability bags (constructor lines 14-15 and 48-70).  The parry
constants are carried as fields, initialized exactly as in the
constructor. -/

structure Warrior where
  maxHealth : ℚ
  health : ℚ
  position : Vec3
  parryCooldown : ℚ
  parryCooldownRemaining : ℚ
  parryDuration : ℚ
  parryPerfectWindow : ℚ
  parryRiposteDamage : ℚ
  parryPerfectDamage : ℚ
  parryIsActive : Bool
  parryActiveTime : ℚ
  potionCooldown : ℚ
  potionCooldownRemaining : ℚ
  potionHealAmount : ℚ
deriving DecidableEq, Repr

/-- A fresh warrior as built by the `Player` constructor. -/
def mkWarrior : Warrior :=
  { maxHealth := 100
    health := 100
    position := ⟨0, 0, 0⟩
    parryCooldown := 5
    parryCooldownRemaining := 0
    parryDuration := (2 / 5)
    parryPerfectWindow := (3 / 20)
    parryRiposteDamage := 50
    parryPerfectDamage := 100
    parryIsActive := false
    parryActiveTime := 0
    potionCooldown := 10
    potionCooldownRemaining := 0
    potionHealAmount := 30 }

/-- Embeds `Warrior.takeDamage` (player.js lines 804-828).  The second
component reports whether `die()` was invoked by this call (the source's
`die` only plays an animation and schedules an asynchronous respawn). -/
def Warrior.takeDamage (w : Warrior) (amount : ℚ) : Warrior × Bool :=
  if w.parryIsActive then
    (w, false)
  else
    let h := w.health - amount
    if h ≤ 0 then ({ w with health := 0 }, true)
    else ({ w with health := h }, false)

/-- Embeds `Warrior.usePotion` (player.js lines 783-802). -/
def Warrior.usePotion (w : Warrior) : Warrior × Bool :=
  if 0 < w.potionCooldownRemaining then (w, false)
  else
    ({ w with
        potionCooldownRemaining := w.potionCooldown
        health := min w.maxHealth (w.health + w.potionHealAmount) }, true)

/-- Embeds `Warrior.useParry` (player.js lines 692-712). -/
def Warrior.useParry (w : Warrior) : Warrior × Bool :=
  if 0 < w.parryCooldownRemaining then (w, false)
  else if w.parryIsActive then (w, false)
  else
    ({ w with
        parryIsActive := true
        parryActiveTime := 0
        parryCooldownRemaining := w.parryCooldown }, true)

/-! ## The base enemy (Combatant)

State of `Enemy` (`src/js/enemy.js` lines 3-25) with the one-shot
`lastHit` / `justDied` mailbox fields the visual layer polls. -/

structure Enemy where
  maxHealth : ℚ
  health : ℚ
  isAlive : Bool
  attackDamage : ℚ
  attackCooldown : ℚ
  attackCooldownMax : ℚ
  attackRange : ℚ
  moveSpeed : ℚ
  aggroRange : ℚ
  isAggro : Bool
  stunTime : ℚ
  position : Vec3
  lastHitPosition : Option Vec3
  lastHitAmount : Option ℚ
  justDied : Bool
  deathPosition : Option Vec3
deriving DecidableEq, Repr

/-- A fresh base enemy as built by the `Enemy` constructor (enemy.js 3-25). -/
def mkEnemy (x z : ℚ) : Enemy :=
  { maxHealth := 100
    health := 100
    isAlive := true
    attackDamage := 5
    attackCooldown := 0
    attackCooldownMax := 2
    attackRange := (3 / 2)
    moveSpeed := 3
    aggroRange := 10
    isAggro := false
    stunTime := 0
    position := ⟨x, 0, z⟩
    lastHitPosition := none
    lastHitAmount := none
    justDied := false
    deathPosition := none }

/-- A fresh `SlimeEnemy` (enemy.js 212-225): the `Enemy` constructor
followed by the subclass overrides. -/
def mkSlimeEnemy (x z : ℚ) : Enemy :=
  { mkEnemy x z with
      maxHealth := 200
      health := 200
      attackDamage := 8
      moveSpeed := (5 / 2) }

/-- Embeds `Enemy.die` (enemy.js 187-209); mesh removal is visual only. -/
def Enemy.die (e : Enemy) : Enemy :=
  { e with
      isAlive := false
      deathPosition := some ⟨e.position.x, e.position.y + 1, e.position.z⟩
      justDied := true }

/-- Embeds `Enemy.takeDamage` (enemy.js 158-181).  Note the source never
clamps `health` at `0`: it subtracts and then calls `die()` when the
result is `≤ 0`. -/
def Enemy.takeDamage (e : Enemy) (amount : ℚ) : Enemy :=
  let e' := { e with
      health := e.health - amount
      isAggro := true
      lastHitPosition := some ⟨e.position.x, e.position.y + 1, e.position.z⟩
      lastHitAmount := some amount }
  if e'.health ≤ 0 then e'.die else e'

/-- Embeds `Enemy.stun` (enemy.js 183-185): a plain assignment
`this.stunTime = duration`. -/
def Enemy.stun (e : Enemy) (duration : ℚ) : Enemy :=
  { e with stunTime := duration }

/-- Embeds `Enemy.update` (enemy.js 76-124), the base combatant's
per-tick `advance`.  `unitDir` supplies the normalized chase direction
`(player.position - this.position).normalize()` computed by the source
(its `y` component is zeroed before use, so only `x`/`z` are passed). -/
def Enemy.update (e : Enemy) (dt : ℚ) (playerPos : Vec3) (unitDir : ℚ × ℚ) : Enemy :=
  if ¬ e.isAlive then e
  else if 0 < e.stunTime then
    { e with stunTime := e.stunTime - dt }
  else
    let e1 := if 0 < e.attackCooldown
      then { e with attackCooldown := e.attackCooldown - dt } else e
    let dSq := Vec3.distSq e1.position playerPos
    let e2 := if dSq < e1.aggroRange ^ 2 then { e1 with isAggro := true } else e1
    if e2.isAggro ∧ e2.attackRange ^ 2 < dSq then
      { e2 with position :=
          ⟨e2.position.x + unitDir.1 * (e2.moveSpeed * dt),
           e2.position.y,
           e2.position.z + unitDir.2 * (e2.moveSpeed * dt)⟩ }
    else e2

/-- Embeds `Warrior.tryParry` (player.js 714-735) queried by an `Enemy`
attacker: the parry contract between the defender and a melee attacker. -/
def Warrior.tryParryEnemy (w : Warrior) (attacker : Enemy) :
    Warrior × Enemy × Bool :=
  if ¬ w.parryIsActive then (w, attacker, false)
  else
    let isPerfect := w.parryActiveTime ≤ w.parryPerfectWindow
    let dmg := if isPerfect then w.parryPerfectDamage else w.parryRiposteDamage
    let a1 := attacker.takeDamage dmg
    let a2 := a1.stun (if isPerfect then 1 else (1 / 2))
    ({ w with parryIsActive := false }, a2, true)

/-- Embeds `Enemy.tryAttack` (enemy.js 144-156): the basic melee strike
against the warrior, gated by the parry contract. -/
def Enemy.tryAttack (e : Enemy) (w : Warrior) : Enemy × Warrior × Bool :=
  if 0 < e.attackCooldown ∨ 0 < e.stunTime then (e, w, false)
  else
    let r := w.tryParryEnemy e
    if r.2.2 then
      ({ r.2.1 with attackCooldown := r.2.1.attackCooldownMax }, r.1, false)
    else
      let w2 := (r.1.takeDamage r.2.1.attackDamage).1
      ({ r.2.1 with attackCooldown := r.2.1.attackCooldownMax }, w2, true)

/-! ## Attack catalog and boss state

Embeds the `AttackType` table (enemy.js 367-402) and the `SlimeBoss`
state (enemy.js 404-459). -/

inductive AttackName where
  | WAVE
  | SLAM
  | SHOCKWAVE
  | BOUNCE
deriving DecidableEq, Repr

structure AttackDef where
  damage : ℚ
  telegraphDuration : ℚ
  executeDuration : ℚ
  cooldown : ℚ
  range : ℚ
  stunDuration : Option ℚ
deriving DecidableEq, Repr

/-- The `AttackType` table (enemy.js 367-402). -/
def attackType : AttackName → AttackDef
  | .WAVE => ⟨20, (3 / 2), (3 / 10), 3, 6, none⟩
  | .SLAM => ⟨30, 2, (2 / 5), 5, 8, none⟩
  | .SHOCKWAVE => ⟨20, (9 / 5), (3 / 10), 6, 4, some (3 / 2)⟩
  | .BOUNCE => ⟨25, (3 / 2), (6 / 5), 8, 20, none⟩

/-- The boss's attack sub-state, the `attackPhase` string of the source
(`'none' | 'telegraph' | 'execute'`). -/
inductive AttackSub where
  | idle
  | telegraph
  | execute
deriving DecidableEq, Repr

/-- Ground hazard record as pushed onto `game.groundHazards`
(enemy.js 1376-1384 and 1411-1419). -/
inductive HazardKind where
  | fire
  | poison
deriving DecidableEq, Repr

structure Hazard where
  position : Vec3
  radius : ℚ
  damage : ℚ
  duration : ℚ
  kind : HazardKind
  tickTimer : ℚ
deriving DecidableEq, Repr

/-- Fire pool spawned by SLAM (enemy.js 1356-1389). -/
def firePool (p : Vec3) : Hazard := ⟨p, 3, 8, 5, .fire, 0⟩

/-- Poison pool spawned at each bounce landing (enemy.js 1391-1424). -/
def poisonPool (p : Vec3) : Hazard := ⟨p, (5 / 2), 6, 6, .poison, 0⟩

/-- State of `SlimeBoss` (enemy.js 404-459): the inherited `Enemy`
fields it actually uses plus the phase / attack-machine fields.  The
fixed thresholds `closeThreshold = 5`, `shockwaveChargeTime = 3` and
`farThreshold = 10` of the constructor are never mutated and appear as
the constants below. -/
structure Boss where
  maxHealth : ℚ
  health : ℚ
  isAlive : Bool
  attackDamage : ℚ
  attackCooldown : ℚ
  attackCooldownMax : ℚ
  moveSpeed : ℚ
  isAggro : Bool
  stunTime : ℚ
  position : Vec3
  lastHitPosition : Option Vec3
  lastHitAmount : Option ℚ
  justDied : Bool
  deathPosition : Option Vec3
  phase : ℕ
  phaseTransitioning : Bool
  phaseTransitionTimer : ℚ
  spawnedAdds : Bool
  cooldownWAVE : ℚ
  cooldownSLAM : ℚ
  cooldownSHOCKWAVE : ℚ
  cooldownBOUNCE : ℚ
  currentAttack : Option AttackName
  attackSub : AttackSub
  attackTimer : ℚ
  attackHitPending : Bool
  playerCloseTimer : ℚ
  bouncePositions : List Vec3
  currentBounce : ℕ
  bounceProgress : ℚ
  bounceStartPos : Vec3
  bounceHits : List Bool
  targetPosition : Vec3
deriving DecidableEq, Repr

def closeThreshold : ℚ := 5
def shockwaveChargeTime : ℚ := 3
def farThreshold : ℚ := 10

/-- A fresh `SlimeBoss` at `(x, z)` (constructor, enemy.js 404-459). -/
def mkBoss (x z : ℚ) : Boss :=
  { maxHealth := 1600
    health := 1600
    isAlive := true
    attackDamage := 15
    attackCooldown := 0
    attackCooldownMax := 2
    moveSpeed := 2
    isAggro := false
    stunTime := 0
    position := ⟨x, 0, z⟩
    lastHitPosition := none
    lastHitAmount := none
    justDied := false
    deathPosition := none
    phase := 1
    phaseTransitioning := false
    phaseTransitionTimer := 0
    spawnedAdds := false
    cooldownWAVE := 0
    cooldownSLAM := 0
    cooldownSHOCKWAVE := 0
    cooldownBOUNCE := 0
    currentAttack := none
    attackSub := .idle
    attackTimer := 0
    attackHitPending := false
    playerCloseTimer := 0
    bouncePositions := []
    currentBounce := 0
    bounceProgress := 0
    bounceStartPos := ⟨x, 0, z⟩
    bounceHits := [false, false, false]
    targetPosition := ⟨0, 0, 0⟩ }

def Boss.getCooldown (b : Boss) : AttackName → ℚ
  | .WAVE => b.cooldownWAVE
  | .SLAM => b.cooldownSLAM
  | .SHOCKWAVE => b.cooldownSHOCKWAVE
  | .BOUNCE => b.cooldownBOUNCE

def Boss.setCooldown (b : Boss) (n : AttackName) (v : ℚ) : Boss :=
  match n with
  | .WAVE => { b with cooldownWAVE := v }
  | .SLAM => { b with cooldownSLAM := v }
  | .SHOCKWAVE => { b with cooldownSHOCKWAVE := v }
  | .BOUNCE => { b with cooldownBOUNCE := v }

/-- Embeds `SlimeBoss.takeDamage` (enemy.js 1471-1476): entirely a no-op
while `phaseTransitioning`, otherwise the inherited `Enemy.takeDamage`
(enemy.js 158-181) acting on the boss's fields. -/
def Boss.takeDamage (b : Boss) (amount : ℚ) : Boss :=
  if b.phaseTransitioning then b
  else
    let b' := { b with
        health := b.health - amount
        isAggro := true
        lastHitPosition := some ⟨b.position.x, b.position.y + 1, b.position.z⟩
        lastHitAmount := some amount }
    if b'.health ≤ 0 then
      { b' with
          isAlive := false
          deathPosition := some ⟨b'.position.x, b'.position.y + 1, b'.position.z⟩
          justDied := true }
    else b'

/-- The inherited `Enemy.stun` acting on the boss. -/
def Boss.stun (b : Boss) (duration : ℚ) : Boss :=
  { b with stunTime := duration }

/-- Embeds `Warrior.tryParry` (player.js 714-735) queried by the boss
(the attacker of every boss special attack). -/
def Warrior.tryParryBoss (w : Warrior) (attacker : Boss) :
    Warrior × Boss × Bool :=
  if ¬ w.parryIsActive then (w, attacker, false)
  else
    let isPerfect := w.parryActiveTime ≤ w.parryPerfectWindow
    let dmg := if isPerfect then w.parryPerfectDamage else w.parryRiposteDamage
    let a1 := attacker.takeDamage dmg
    let a2 := a1.stun (if isPerfect then 1 else (1 / 2))
    ({ w with parryIsActive := false }, a2, true)

/-- Damage events on the player, one per `player.takeDamage` call made
by the boss machinery; used to count how often an attack actually
applied damage. -/
inductive DmgEvent where
  | attackHit (n : AttackName)
  | bounceHit (i : ℕ)
deriving DecidableEq, Repr

/-- Embeds `calculateBouncePositions` (enemy.js 962-1021, the geometric
part): three landings along the cast-time direction to the player, each
`bounceDistance = 6` further out.  `unitDir` is the source's normalized
`(player.position - this.position)` with its `y` zeroed. -/
def calcBouncePositions (pos : Vec3) (unitDir : ℚ × ℚ) : List Vec3 :=
  [⟨pos.x + unitDir.1 * 6, pos.y, pos.z + unitDir.2 * 6⟩,
   ⟨pos.x + unitDir.1 * 12, pos.y, pos.z + unitDir.2 * 12⟩,
   ⟨pos.x + unitDir.1 * 18, pos.y, pos.z + unitDir.2 * 18⟩]

/-- Embeds `SlimeBoss.startAttack` (enemy.js 816-837); the telegraph
meshes it creates are visual only. -/
def Boss.startAttack (b : Boss) (n : AttackName) (playerPos : Vec3)
    (unitDir : ℚ × ℚ) : Boss :=
  let atk := attackType n
  let b1 := { b with
      currentAttack := some n
      attackSub := AttackSub.telegraph
      attackTimer := atk.telegraphDuration
      targetPosition := playerPos }
  let b2 := b1.setCooldown n atk.cooldown
  if n = .BOUNCE then
    { b2 with
        bounceStartPos := b2.position
        currentBounce := 0
        bounceProgress := 0
        bounceHits := [false, false, false]
        bouncePositions := calcBouncePositions b2.position unitDir }
  else b2

/-- Embeds `SlimeBoss.tryStartAttack` (enemy.js 787-814).  `dSq` is the
squared `distToPlayer` computed by the caller (`update`). -/
def Boss.tryStartAttack (b : Boss) (playerPos : Vec3) (unitDir : ℚ × ℚ)
    (dSq : ℚ) : Boss × Bool :=
  if farThreshold ^ 2 ≤ dSq ∧ b.cooldownBOUNCE ≤ 0 then
    (b.startAttack .BOUNCE playerPos unitDir, true)
  else if shockwaveChargeTime ≤ b.playerCloseTimer ∧ b.cooldownSHOCKWAVE ≤ 0 then
    (Boss.startAttack { b with playerCloseTimer := 0 } .SHOCKWAVE playerPos unitDir,
     true)
  else if dSq ≤ (attackType .SLAM).range ^ 2 ∧ b.cooldownSLAM ≤ 0 then
    (b.startAttack .SLAM playerPos unitDir, true)
  else if dSq ≤ (attackType .WAVE).range ^ 2 ∧ b.cooldownWAVE ≤ 0 then
    (b.startAttack .WAVE playerPos unitDir, true)
  else (b, false)

/-- Embeds `SlimeBoss.checkBounceDamage` (enemy.js 1210-1243): the per-
landing hit guard, the `dist < 4` check, the parry query and the damage
application.  When `bouncePositions` lacks the index the source would
fault on `undefined` (unreachable while a bounce is in flight, where the
list always has 3 entries); we return the state unchanged there. -/
def Boss.checkBounceDamage (b : Boss) (w : Warrior) (idx : ℕ) :
    Boss × Warrior × List DmgEvent :=
  if b.bounceHits.getD idx false then (b, w, [])
  else
    match b.bouncePositions.get? idx with
    | none => (b, w, [])
    | some landPos =>
      if Vec3.distSq w.position landPos < 4 ^ 2 then
        let b1 := { b with bounceHits := b.bounceHits.set idx true }
        let r := w.tryParryBoss b1
        if r.2.2 then (r.2.1, r.1, [])
        else
          let w2 := (r.1.takeDamage (attackType .BOUNCE).damage).1
          (r.2.1, w2, [.bounceHit idx])
      else (b, w, [])

/-- Embeds `SlimeBoss.dealAttackDamage` (enemy.js 1245-1332): the single
damage resolution of a non-bounce attack.  Note on SHOCKWAVE: the source
attempts `player.applyStun(attack.stunDuration)` behind the duck-typed
guard `if (player.applyStun)`; no player class of the repository defines
`applyStun` (neither player.js, playerBase.js nor mage.js), so the guard
fails and no stun reaches the defender, which the embedding reflects by
not having any such call. -/
def Boss.dealAttackDamage (b : Boss) (w : Warrior) :
    Boss × Warrior × List Hazard × List DmgEvent :=
  match b.currentAttack with
  | none => (b, w, [], [])
  | some n =>
    let atk := attackType n
    let hit : Bool :=
      match n with
      | .WAVE => decide (Vec3.distSq w.position b.position < 6 ^ 2)
      | .SLAM => decide (Vec3.distSq w.position b.targetPosition < 4 ^ 2)
      | .SHOCKWAVE =>
          decide (2 ^ 2 ≤ Vec3.distSq w.position b.position ∧
                  Vec3.distSq w.position b.position < 6 ^ 2)
      | .BOUNCE => false
    let hazards : List Hazard :=
      match n with
      | .SLAM => [firePool b.targetPosition]
      | _ => []
    if hit then
      let r := w.tryParryBoss b
      if r.2.2 then (r.2.1, r.1, hazards, [])
      else
        let w2 := (r.1.takeDamage atk.damage).1
        (r.2.1, w2, hazards, [.attackHit n])
    else (b, w, hazards, [])

/-- Embeds the BOUNCE branch plus the single-hit branch of
`SlimeBoss.executeAttack` (enemy.js 1161-1208).  The caller
(`updateAttack`) has already decremented `attackTimer`.  Where the
source would fault on an `undefined` array entry (list shorter than the
index, impossible while a bounce is in flight) the state is returned
unchanged; the `if (targetPos)` guard of the interpolation exists in the
source itself. -/
def Boss.executeAttack (b : Boss) (w : Warrior) :
    Boss × Warrior × List Hazard × List DmgEvent :=
  match b.currentAttack with
  | some .BOUNCE =>
    let total := (attackType .BOUNCE).executeDuration
    let bounceDuration := total / 3
    let elapsed := total - b.attackTimer
    let newBounce : ℤ := min 2 ⌊elapsed / bounceDuration⌋
    let land :=
      if (b.currentBounce : ℤ) < newBounce then
        let r := b.checkBounceDamage w b.currentBounce
        let hzb :=
          match r.1.bouncePositions.get? r.1.currentBounce with
          | some p => ([poisonPool p], { r.1 with bounceStartPos := p })
          | none => ([], r.1)
        (({ hzb.2 with currentBounce := newBounce.toNat } : Boss),
         r.2.1, hzb.1, r.2.2)
      else (b, w, ([] : List Hazard), ([] : List DmgEvent))
    let b3 := land.1
    let bounceElapsed := elapsed - (b3.currentBounce : ℚ) * bounceDuration
    let b4 := { b3 with bounceProgress := min 1 (bounceElapsed / bounceDuration) }
    let b5 :=
      match b4.bouncePositions.get? b4.currentBounce with
      | some target =>
        let t := b4.bounceProgress
        { b4 with position :=
            ⟨b4.bounceStartPos.x + (target.x - b4.bounceStartPos.x) * t,
             b4.position.y,
             b4.bounceStartPos.z + (target.z - b4.bounceStartPos.z) * t⟩ }
      | none => b4
    (b5, land.2.1, land.2.2.1, land.2.2.2)
  | _ =>
    if b.attackHitPending then
      ({ b with attackHitPending := false }).dealAttackDamage w
    else (b, w, [], [])

/-- Embeds `SlimeBoss.finishAttack` (enemy.js 1334-1354): the third
landing's resolution, poison pool and position snap, then the return to
the idle sub-state. -/
def Boss.finishAttack (b : Boss) (w : Warrior) :
    Boss × Warrior × List Hazard × List DmgEvent :=
  let fin :=
    if b.currentAttack = some AttackName.BOUNCE ∧ 0 < b.bouncePositions.length then
      let r := b.checkBounceDamage w 2
      let hzb :=
        match r.1.bouncePositions.get? 2 with
        | some finPos =>
            ([poisonPool finPos],
             ({ r.1 with
                 position := ⟨finPos.x, r.1.position.y, finPos.z⟩ } : Boss))
        | none => ([], r.1)
      (hzb.2, r.2.1, hzb.1, r.2.2)
    else (b, w, ([] : List Hazard), ([] : List DmgEvent))
  ({ fin.1 with
      attackSub := AttackSub.idle
      currentAttack := none
      bouncePositions := [] }, fin.2.1, fin.2.2.1, fin.2.2.2)

/-- Embeds `SlimeBoss.updateAttack` (enemy.js 1129-1159).  In the
telegraph branch the source reads `AttackType[this.currentAttack]`
before anything else, so a telegraph with no current attack would fault;
that state is unreachable and left unchanged here. -/
def Boss.updateAttack (b : Boss) (w : Warrior) (dt : ℚ) :
    Boss × Warrior × List Hazard × List DmgEvent :=
  let b0 := { b with attackTimer := b.attackTimer - dt }
  match b0.attackSub with
  | .telegraph =>
    match b0.currentAttack with
    | none => (b0, w, [], [])
    | some n =>
      if b0.attackTimer ≤ 0 then
        let b1 := { b0 with
            attackSub := AttackSub.execute
            attackTimer := (attackType n).executeDuration
            attackHitPending := true }
        let b2 :=
          if n = .BOUNCE then
            { b1 with currentBounce := 0, bounceProgress := 0,
                      bounceStartPos := b1.position }
          else b1
        (b2, w, [], [])
      else (b0, w, [], [])
  | .execute =>
    let r := b0.executeAttack w
    if r.1.attackTimer ≤ 0 then
      let f := r.1.finishAttack r.2.1
      (f.1, f.2.1, r.2.2.1 ++ f.2.2.1, r.2.2.2 ++ f.2.2.2)
    else r
  | .idle => (b0, w, [], [])

/-- Embeds `SlimeBoss.startPhaseTransition` (enemy.js 1426-1432). -/
def Boss.startPhaseTransition (b : Boss) : Boss :=
  { b with
      phaseTransitioning := true
      phaseTransitionTimer := 2
      attackSub := AttackSub.idle
      currentAttack := none }

/-- The four reinforcement slimes of `spawnPhase2Adds` (enemy.js
1455-1469), in the source's spawn order. -/
def phase2Adds (p : Vec3) : List Enemy :=
  [{ mkSlimeEnemy (p.x - 8) p.z with isAggro := true },
   { mkSlimeEnemy (p.x + 8) p.z with isAggro := true },
   { mkSlimeEnemy p.x (p.z - 8) with isAggro := true },
   { mkSlimeEnemy p.x (p.z + 8) with isAggro := true }]

/-- Embeds `SlimeBoss.updatePhaseTransition` (enemy.js 1434-1453),
returning the adds pushed onto `game.enemies`. -/
def Boss.updatePhaseTransition (b : Boss) (dt : ℚ) : Boss × List Enemy :=
  let b1 := { b with phaseTransitionTimer := b.phaseTransitionTimer - dt }
  if b1.phaseTransitionTimer ≤ 0 then
    let b2 := { b1 with phaseTransitioning := false, phase := 2 }
    if ¬ b2.spawnedAdds then
      ({ b2 with spawnedAdds := true }, phase2Adds b2.position)
    else (b2, [])
  else (b1, [])

/-- The cooldown sweep at the head of `SlimeBoss.update` (enemy.js
605-610): each of the four cooldowns is decremented when positive. -/
def Boss.decCooldowns (b : Boss) (dt : ℚ) : Boss :=
  { b with
      cooldownWAVE :=
        if 0 < b.cooldownWAVE then b.cooldownWAVE - dt else b.cooldownWAVE
      cooldownSLAM :=
        if 0 < b.cooldownSLAM then b.cooldownSLAM - dt else b.cooldownSLAM
      cooldownSHOCKWAVE :=
        if 0 < b.cooldownSHOCKWAVE then b.cooldownSHOCKWAVE - dt
        else b.cooldownSHOCKWAVE
      cooldownBOUNCE :=
        if 0 < b.cooldownBOUNCE then b.cooldownBOUNCE - dt
        else b.cooldownBOUNCE }

/-- Result of one `SlimeBoss.update` call: the new boss and player
states, the adds pushed onto `game.enemies`, the ground hazards pushed
onto `game.groundHazards`, the damage events applied to the player, and
(as instrumentation) whether `startPhaseTransition` was invoked during
the call. -/
structure BossStep where
  boss : Boss
  player : Warrior
  slimes : List Enemy
  hazards : List Hazard
  events : List DmgEvent
  entered : Bool
deriving DecidableEq, Repr

/-- The tail of `SlimeBoss.update` (enemy.js 632-678): proximity
tracking, the in-flight attack, attack selection and chase movement,
reached only when the boss is alive, unstunned and not phase
transitioning. -/
def Boss.updateMain (b2 : Boss) (w : Warrior) (dt : ℚ) (unitDir : ℚ × ℚ) :
    BossStep :=
  let dSq := Vec3.distSq b2.position w.position
  let b3 := if dSq ≤ closeThreshold ^ 2
    then { b2 with playerCloseTimer := b2.playerCloseTimer + dt }
    else { b2 with playerCloseTimer := 0 }
  if b3.attackSub ≠ AttackSub.idle then
    let r := b3.updateAttack w dt
    ⟨r.1, r.2.1, [], r.2.2.1, r.2.2.2, false⟩
  else
    let t := b3.tryStartAttack w.position unitDir dSq
    if t.2 then ⟨t.1, w, [], [], [], false⟩
    else
      let b5 := { t.1 with isAggro := true }
      let b6 := if closeThreshold ^ 2 < dSq
        then { b5 with position :=
            ⟨b5.position.x + unitDir.1 * (b5.moveSpeed * dt),
             b5.position.y,
             b5.position.z + unitDir.2 * (b5.moveSpeed * dt)⟩ }
        else b5
      ⟨b6, w, [], [], [], false⟩

/-- Embeds `SlimeBoss.update` (enemy.js 599-678), head part: liveness
and game-state gates, the cooldown sweep, the stun gate and the phase
transition trigger and countdown; everything else is `updateMain`. -/
def Boss.update (b : Boss) (w : Warrior) (dt : ℚ) (unitDir : ℚ × ℚ)
    (playing : Bool) : BossStep :=
  if ¬ b.isAlive then ⟨b, w, [], [], [], false⟩
  else if ¬ playing then ⟨b, w, [], [], [], false⟩
  else
    let b1 := b.decCooldowns dt
    if 0 < b1.stunTime then
      ⟨{ b1 with stunTime := b1.stunTime - dt }, w, [], [], [], false⟩
    else
      if b1.phase = 1 ∧ b1.health ≤ b1.maxHealth * (1 / 2) ∧
          ¬ b1.phaseTransitioning then
        let pr := (b1.startPhaseTransition).updatePhaseTransition dt
        ⟨pr.1, w, pr.2, [], [], true⟩
      else if b1.phaseTransitioning then
        let pr := b1.updatePhaseTransition dt
        ⟨pr.1, w, pr.2, [], [], false⟩
      else b1.updateMain w dt unitDir

/-! ## Traces of the boss

An adversarial environment drives the boss: each step is either a
`SlimeBoss.update` tick (with an arbitrary player state, step size and
chase direction), a `takeDamage` call, or a `stun` call — exactly the
three entry points through which the rest of the game mutates the
boss. -/

inductive Op where
  | tick (dt : ℚ) (w : Warrior) (unitDir : ℚ × ℚ) (playing : Bool)
  | hit (amount : ℚ)
  | stunFor (d : ℚ)

/-- One environment step acting on the boss. -/
def applyOp (b : Boss) : Op → BossStep
  | .tick dt w u playing => b.update w dt u playing
  | .hit amount => ⟨b.takeDamage amount, mkWarrior, [], [], [], false⟩
  | .stunFor d => ⟨b.stun d, mkWarrior, [], [], [], false⟩

/-- Number of phase-transition entries along a trace. -/
def transCount (b : Boss) : List Op → ℕ
  | [] => 0
  | op :: rest =>
      let s := applyOp b op
      (if s.entered then 1 else 0) + transCount s.boss rest

/-- Total number of reinforcement adds spawned along a trace. -/
def addsCount (b : Boss) : List Op → ℕ
  | [] => 0
  | op :: rest =>
      let s := applyOp b op
      s.slimes.length + addsCount s.boss rest

/-- Damage events emitted during the current attack instance: the trace
is followed until the attack sub-state returns to idle (the instance's
end — `finishAttack` or a phase transition), and the events emitted up
to and including that step are collected. -/
def instRun (b : Boss) : List Op → List DmgEvent
  | [] => []
  | op :: rest =>
      let s := applyOp b op
      if s.boss.attackSub = AttackSub.idle then s.events
      else s.events ++ instRun s.boss rest

/-- Number of damage applications recorded against landing `i`. -/
def countBounceHit (i : ℕ) (evs : List DmgEvent) : ℕ :=
  (evs.filter (fun e => decide (e = DmgEvent.bounceHit i))).length

/-- Boss states visited during the current attack instance: the trace is
followed until the attack sub-state returns to idle (the instance's
end), and the state reached after each step, up to and including the
final one, is collected. -/
def instStates (b : Boss) : List Op → List Boss
  | [] => []
  | op :: rest =>
      let s := applyOp b op
      if s.boss.attackSub = AttackSub.idle then [s.boss]
      else s.boss :: instStates s.boss rest

/-! ## Ground hazards (Encounter driver side)

Embeds `Game.updateGroundHazards` (game.js 642-677). -/

/-- Processing of a single hazard within `Game.updateGroundHazards`
(game.js 643-675): duration countdown, the (1 / 2)-second damage tick
against the player, and removal on expiry (`none`). -/
def hazardStep (h : Hazard) (w : Warrior) (dt : ℚ) : Option Hazard × Warrior :=
  let h1 := { h with duration := h.duration - dt, tickTimer := h.tickTimer + dt }
  let hw : Hazard × Warrior :=
    if (1 / 2) ≤ h1.tickTimer then
      let h' := { h1 with tickTimer := 0 }
      if Vec3.distSq w.position h'.position < h'.radius ^ 2 then
        (h', (w.takeDamage h'.damage).1)
      else (h', w)
    else (h1, w)
  (if hw.1.duration ≤ 0 then none else some hw.1, hw.2)

/-- Embeds the whole `Game.updateGroundHazards` loop, which walks the
array from its last index down to `0` (so later hazards are processed
first) and splices out expired entries. -/
def updateGroundHazards (hz : List Hazard) (w : Warrior) (dt : ℚ) :
    List Hazard × Warrior :=
  match hz with
  | [] => ([], w)
  | h :: rest =>
      let r := updateGroundHazards rest w dt
      let s := hazardStep h r.2 dt
      (match s.1 with
       | some hh => hh :: r.1
       | none => r.1, s.2)

/-- Modelled from the spec: section 4.2 demands that every
damage-dealing interaction, the ground-hazard tick included, query the
parry contract on the defender before applying damage and abort the
damage on success (a query of an active stance consumes the stance and
reports success).  The source's hazard tick (game.js 655-665) instead
calls `player.takeDamage` directly; this definition follows the spec's
words for the tick so the two can be compared. -/
def specHazardStep (h : Hazard) (w : Warrior) (dt : ℚ) :
    Option Hazard × Warrior :=
  let h1 := { h with duration := h.duration - dt, tickTimer := h.tickTimer + dt }
  let hw : Hazard × Warrior :=
    if (1 / 2) ≤ h1.tickTimer then
      let h' := { h1 with tickTimer := 0 }
      if Vec3.distSq w.position h'.position < h'.radius ^ 2 then
        (h', if w.parryIsActive then { w with parryIsActive := false }
             else (w.takeDamage h'.damage).1)
      else (h', w)
    else (h1, w)
  (if hw.1.duration ≤ 0 then none else some hw.1, hw.2)

/-! ## Projection lemmas

Field-level consequences of `takeDamage` and `stun`, used to reason
about the parry contract and the boss machine without unfolding the
conditional death branches. -/

@[simp] theorem Enemy.takeDamage_health (e : Enemy) (a : ℚ) :
    (e.takeDamage a).health = e.health - a := by
  simp only [Enemy.takeDamage, Enemy.die]
  split_ifs <;> rfl

@[simp] theorem Enemy.takeDamage_attackCooldown (e : Enemy) (a : ℚ) :
    (e.takeDamage a).attackCooldown = e.attackCooldown := by
  simp only [Enemy.takeDamage, Enemy.die]
  split_ifs <;> rfl

@[simp] theorem Enemy.takeDamage_attackCooldownMax (e : Enemy) (a : ℚ) :
    (e.takeDamage a).attackCooldownMax = e.attackCooldownMax := by
  simp only [Enemy.takeDamage, Enemy.die]
  split_ifs <;> rfl

@[simp] theorem Enemy.takeDamage_stunTime (e : Enemy) (a : ℚ) :
    (e.takeDamage a).stunTime = e.stunTime := by
  simp only [Enemy.takeDamage, Enemy.die]
  split_ifs <;> rfl

@[simp] theorem Enemy.takeDamage_position (e : Enemy) (a : ℚ) :
    (e.takeDamage a).position = e.position := by
  simp only [Enemy.takeDamage, Enemy.die]
  split_ifs <;> rfl

@[simp] theorem Enemy.takeDamage_isAggro (e : Enemy) (a : ℚ) :
    (e.takeDamage a).isAggro = true := by
  simp only [Enemy.takeDamage, Enemy.die]
  split_ifs <;> rfl

@[simp] theorem Enemy.stun_stunTime (e : Enemy) (d : ℚ) :
    (e.stun d).stunTime = d := rfl

@[simp] theorem Enemy.stun_health (e : Enemy) (d : ℚ) :
    (e.stun d).health = e.health := rfl

@[simp] theorem Enemy.stun_attackCooldown (e : Enemy) (d : ℚ) :
    (e.stun d).attackCooldown = e.attackCooldown := rfl

@[simp] theorem Enemy.stun_attackCooldownMax (e : Enemy) (d : ℚ) :
    (e.stun d).attackCooldownMax = e.attackCooldownMax := rfl

@[simp] theorem Enemy.stun_position (e : Enemy) (d : ℚ) :
    (e.stun d).position = e.position := rfl

@[simp] theorem Enemy.stun_isAggro (e : Enemy) (d : ℚ) :
    (e.stun d).isAggro = e.isAggro := rfl

@[simp] theorem Warrior.takeDamage_active (w : Warrior) (a : ℚ)
    (hact : w.parryIsActive = true) : w.takeDamage a = (w, false) := by
  simp [Warrior.takeDamage, hact]

/-- All the boss fields that `Boss.takeDamage` can never change,
bundled. -/
theorem Boss.takeDamage_fields (b : Boss) (a : ℚ) :
    (b.takeDamage a).phase = b.phase ∧
    (b.takeDamage a).phaseTransitioning = b.phaseTransitioning ∧
    (b.takeDamage a).phaseTransitionTimer = b.phaseTransitionTimer ∧
    (b.takeDamage a).spawnedAdds = b.spawnedAdds ∧
    (b.takeDamage a).attackSub = b.attackSub ∧
    (b.takeDamage a).currentAttack = b.currentAttack ∧
    (b.takeDamage a).attackTimer = b.attackTimer ∧
    (b.takeDamage a).bounceHits = b.bounceHits ∧
    (b.takeDamage a).bouncePositions = b.bouncePositions ∧
    (b.takeDamage a).currentBounce = b.currentBounce ∧
    (b.takeDamage a).stunTime = b.stunTime ∧
    (b.takeDamage a).position = b.position := by
  simp only [Boss.takeDamage]
  split_ifs <;> exact ⟨rfl, rfl, rfl, rfl, rfl, rfl, rfl, rfl, rfl, rfl, rfl, rfl⟩

@[simp] theorem Boss.takeDamage_phase (b : Boss) (a : ℚ) :
    (b.takeDamage a).phase = b.phase := (b.takeDamage_fields a).1

@[simp] theorem Boss.takeDamage_phaseTransitioning (b : Boss) (a : ℚ) :
    (b.takeDamage a).phaseTransitioning = b.phaseTransitioning :=
  (b.takeDamage_fields a).2.1

@[simp] theorem Boss.takeDamage_spawnedAdds (b : Boss) (a : ℚ) :
    (b.takeDamage a).spawnedAdds = b.spawnedAdds :=
  (b.takeDamage_fields a).2.2.2.1

@[simp] theorem Boss.takeDamage_attackSub (b : Boss) (a : ℚ) :
    (b.takeDamage a).attackSub = b.attackSub :=
  (b.takeDamage_fields a).2.2.2.2.1

@[simp] theorem Boss.takeDamage_currentAttack (b : Boss) (a : ℚ) :
    (b.takeDamage a).currentAttack = b.currentAttack :=
  (b.takeDamage_fields a).2.2.2.2.2.1

@[simp] theorem Boss.takeDamage_attackTimer (b : Boss) (a : ℚ) :
    (b.takeDamage a).attackTimer = b.attackTimer :=
  (b.takeDamage_fields a).2.2.2.2.2.2.1

@[simp] theorem Boss.takeDamage_bounceHits (b : Boss) (a : ℚ) :
    (b.takeDamage a).bounceHits = b.bounceHits :=
  (b.takeDamage_fields a).2.2.2.2.2.2.2.1

@[simp] theorem Boss.takeDamage_bouncePositions (b : Boss) (a : ℚ) :
    (b.takeDamage a).bouncePositions = b.bouncePositions :=
  (b.takeDamage_fields a).2.2.2.2.2.2.2.2.1

@[simp] theorem Boss.takeDamage_currentBounce (b : Boss) (a : ℚ) :
    (b.takeDamage a).currentBounce = b.currentBounce :=
  (b.takeDamage_fields a).2.2.2.2.2.2.2.2.2.1

@[simp] theorem Boss.stun_stunTime' (b : Boss) (d : ℚ) :
    (b.stun d).stunTime = d := rfl

@[simp] theorem Boss.stun_phase (b : Boss) (d : ℚ) :
    (b.stun d).phase = b.phase := rfl

@[simp] theorem Boss.stun_phaseTransitioning (b : Boss) (d : ℚ) :
    (b.stun d).phaseTransitioning = b.phaseTransitioning := rfl

@[simp] theorem Boss.stun_spawnedAdds (b : Boss) (d : ℚ) :
    (b.stun d).spawnedAdds = b.spawnedAdds := rfl

@[simp] theorem Boss.stun_attackSub (b : Boss) (d : ℚ) :
    (b.stun d).attackSub = b.attackSub := rfl

@[simp] theorem Boss.stun_currentAttack (b : Boss) (d : ℚ) :
    (b.stun d).currentAttack = b.currentAttack := rfl

@[simp] theorem Boss.stun_bounceHits (b : Boss) (d : ℚ) :
    (b.stun d).bounceHits = b.bounceHits := rfl

@[simp] theorem Boss.decCooldowns_fields (b : Boss) (dt : ℚ) :
    ((b.decCooldowns dt).phase = b.phase ∧
     (b.decCooldowns dt).phaseTransitioning = b.phaseTransitioning ∧
     (b.decCooldowns dt).phaseTransitionTimer = b.phaseTransitionTimer ∧
     (b.decCooldowns dt).spawnedAdds = b.spawnedAdds ∧
     (b.decCooldowns dt).attackSub = b.attackSub ∧
     (b.decCooldowns dt).currentAttack = b.currentAttack ∧
     (b.decCooldowns dt).health = b.health ∧
     (b.decCooldowns dt).maxHealth = b.maxHealth ∧
     (b.decCooldowns dt).stunTime = b.stunTime ∧
     (b.decCooldowns dt).isAlive = b.isAlive ∧
     (b.decCooldowns dt).position = b.position ∧
     (b.decCooldowns dt).bounceHits = b.bounceHits ∧
     (b.decCooldowns dt).playerCloseTimer = b.playerCloseTimer ∧
     (b.decCooldowns dt).attackTimer = b.attackTimer) :=
  ⟨rfl, rfl, rfl, rfl, rfl, rfl, rfl, rfl, rfl, rfl, rfl, rfl, rfl, rfl⟩

/-! ## Preservation lemmas for the phase machinery

The fields `phase`, `phaseTransitioning` and `spawnedAdds` are written
only by the phase-transition code itself; every other boss operation
leaves them unchanged.  `PhaseFieldsEq` bundles that statement. -/

def PhaseFieldsEq (b b' : Boss) : Prop :=
  b'.phase = b.phase ∧ b'.phaseTransitioning = b.phaseTransitioning ∧
    b'.spawnedAdds = b.spawnedAdds

theorem PhaseFieldsEq.rfl' (b : Boss) : PhaseFieldsEq b b := ⟨rfl, rfl, rfl⟩

theorem PhaseFieldsEq.trans' {a b c : Boss}
    (h1 : PhaseFieldsEq a b) (h2 : PhaseFieldsEq b c) : PhaseFieldsEq a c :=
  ⟨h2.1.trans h1.1, h2.2.1.trans h1.2.1, h2.2.2.trans h1.2.2⟩

theorem tryParryBoss_phaseFields (w : Warrior) (b : Boss) :
    PhaseFieldsEq b (w.tryParryBoss b).2.1 := by
  unfold Warrior.tryParryBoss PhaseFieldsEq
  split_ifs <;> simp

theorem takeDamage_phaseFields' (b : Boss) (a : ℚ) :
    PhaseFieldsEq b (b.takeDamage a) := by
  exact ⟨by simp, by simp, by simp⟩

theorem checkBounceDamage_phaseFields (b : Boss) (w : Warrior) (i : ℕ) :
    PhaseFieldsEq b (b.checkBounceDamage w i).1 := by
  simp only [Boss.checkBounceDamage]
  cases hflag : b.bounceHits.getD i false with
  | true => simp [hflag, PhaseFieldsEq]
  | false =>
    cases hpos : b.bouncePositions.get? i with
    | none => simp [hflag, hpos, PhaseFieldsEq]
    | some landPos =>
      by_cases h2 : Vec3.distSq w.position landPos < 4 ^ 2 <;>
        by_cases hact : w.parryIsActive = true <;>
          simp [hflag, hpos, h2, hact, Warrior.tryParryBoss, PhaseFieldsEq]

theorem dealAttackDamage_phaseFields (b : Boss) (w : Warrior) :
    PhaseFieldsEq b (b.dealAttackDamage w).1 := by
  simp only [Boss.dealAttackDamage]
  cases hca : b.currentAttack with
  | none => exact PhaseFieldsEq.rfl' b
  | some n =>
    by_cases hact : w.parryIsActive = true <;>
      cases n <;>
        simp [hact, Warrior.tryParryBoss, PhaseFieldsEq] <;>
          split_ifs <;> simp_all [PhaseFieldsEq]

theorem executeAttack_phaseFields (b : Boss) (w : Warrior) :
    PhaseFieldsEq b (b.executeAttack w).1 := by
  have hdeal : ∀ b' : Boss, PhaseFieldsEq b b' →
      PhaseFieldsEq b (b'.dealAttackDamage w).1 :=
    fun b' h => PhaseFieldsEq.trans' h (dealAttackDamage_phaseFields b' w)
  have hc := checkBounceDamage_phaseFields b w b.currentBounce
  simp only [Boss.executeAttack]
  cases hca : b.currentAttack with
  | none =>
    dsimp only
    split_ifs with h1
    · exact hdeal _ ⟨rfl, rfl, rfl⟩
    · exact PhaseFieldsEq.rfl' b
  | some n =>
    cases n with
    | BOUNCE =>
      dsimp only
      split_ifs with hnew
      · split <;> split <;> exact ⟨hc.1, hc.2.1, hc.2.2⟩
      · split <;> exact ⟨rfl, rfl, rfl⟩
    | WAVE =>
      dsimp only
      split_ifs with h1
      · exact hdeal _ ⟨rfl, rfl, rfl⟩
      · exact PhaseFieldsEq.rfl' b
    | SLAM =>
      dsimp only
      split_ifs with h1
      · exact hdeal _ ⟨rfl, rfl, rfl⟩
      · exact PhaseFieldsEq.rfl' b
    | SHOCKWAVE =>
      dsimp only
      split_ifs with h1
      · exact hdeal _ ⟨rfl, rfl, rfl⟩
      · exact PhaseFieldsEq.rfl' b

theorem finishAttack_phaseFields (b : Boss) (w : Warrior) :
    PhaseFieldsEq b (b.finishAttack w).1 := by
  have hc := checkBounceDamage_phaseFields b w 2
  simp only [Boss.finishAttack]
  split_ifs with h1
  · split <;> exact ⟨hc.1, hc.2.1, hc.2.2⟩
  · exact ⟨rfl, rfl, rfl⟩

theorem updateAttack_phaseFields (b : Boss) (w : Warrior) (dt : ℚ) :
    PhaseFieldsEq b (b.updateAttack w dt).1 := by
  simp only [Boss.updateAttack]
  cases hsub : b.attackSub with
  | telegraph =>
    cases hca : b.currentAttack with
    | none => exact ⟨rfl, rfl, rfl⟩
    | some n =>
      dsimp only
      split_ifs <;> exact ⟨rfl, rfl, rfl⟩
  | execute =>
    dsimp only
    split_ifs with h1
    · refine PhaseFieldsEq.trans'
        (PhaseFieldsEq.trans' ?_ (executeAttack_phaseFields _ w))
        (finishAttack_phaseFields _ _)
      exact ⟨rfl, rfl, rfl⟩
    · refine PhaseFieldsEq.trans' ?_ (executeAttack_phaseFields _ w)
      exact ⟨rfl, rfl, rfl⟩
  | idle => exact ⟨rfl, rfl, rfl⟩

theorem startAttack_phaseFields (b : Boss) (n : AttackName) (p : Vec3)
    (u : ℚ × ℚ) : PhaseFieldsEq b (b.startAttack n p u) := by
  unfold Boss.startAttack Boss.setCooldown
  cases n <;> dsimp only <;> split_ifs <;> exact ⟨rfl, rfl, rfl⟩

theorem tryStartAttack_phaseFields (b : Boss) (p : Vec3) (u : ℚ × ℚ)
    (dSq : ℚ) : PhaseFieldsEq b (b.tryStartAttack p u dSq).1 := by
  unfold Boss.tryStartAttack
  split_ifs with h1 h2 h3 h4
  · exact startAttack_phaseFields b .BOUNCE p u
  · exact PhaseFieldsEq.trans' (⟨rfl, rfl, rfl⟩ : PhaseFieldsEq b _)
      (startAttack_phaseFields { b with playerCloseTimer := 0 } .SHOCKWAVE p u)
  · exact startAttack_phaseFields b .SLAM p u
  · exact startAttack_phaseFields b .WAVE p u
  · exact ⟨rfl, rfl, rfl⟩

theorem updateMain_entered (b : Boss) (w : Warrior) (dt : ℚ) (u : ℚ × ℚ) :
    (b.updateMain w dt u).entered = false := by
  dsimp only [Boss.updateMain]
  split_ifs <;> rfl

theorem updateMain_slimes (b : Boss) (w : Warrior) (dt : ℚ) (u : ℚ × ℚ) :
    (b.updateMain w dt u).slimes = [] := by
  dsimp only [Boss.updateMain]
  split_ifs <;> rfl

theorem updateMain_phaseFields (b : Boss) (w : Warrior) (dt : ℚ) (u : ℚ × ℚ) :
    PhaseFieldsEq b (b.updateMain w dt u).boss := by
  dsimp only [Boss.updateMain]
  split_ifs <;>
    first
      | exact
          ⟨(updateAttack_phaseFields _ w dt).1,
           (updateAttack_phaseFields _ w dt).2.1,
           (updateAttack_phaseFields _ w dt).2.2⟩
      | exact
          ⟨(tryStartAttack_phaseFields _ w.position u _).1,
           (tryStartAttack_phaseFields _ w.position u _).2.1,
           (tryStartAttack_phaseFields _ w.position u _).2.2⟩

/-- The invariant behind the once-per-fight property: after a phase
transition has been entered the boss is either still transitioning or
already in phase 2; the trigger can never fire again. -/
def TransInv (b : Boss) : Prop :=
  b.phaseTransitioning = true ∨ b.phase ≠ 1

theorem updatePhaseTransition_inv (b : Boss) (dt : ℚ)
    (h : b.phaseTransitioning = true) :
    TransInv (b.updatePhaseTransition dt).1 := by
  unfold TransInv
  simp only [Boss.updatePhaseTransition]
  split_ifs with h1 h2 <;> simp [h]

/-- Entering the transition during a step requires exactly the source's
trigger: phase 1, health at or below half, not already transitioning. -/
theorem applyOp_entered (b : Boss) (op : Op)
    (h : (applyOp b op).entered = true) :
    b.phase = 1 ∧ b.health ≤ b.maxHealth * (1 / 2) ∧
      b.phaseTransitioning = false := by
  cases op with
  | hit a => exact (Bool.false_ne_true h).elim
  | stunFor d => exact (Bool.false_ne_true h).elim
  | tick dt w u playing =>
    dsimp only [applyOp, Boss.update] at h
    split_ifs at h with h1 h2 h3 h4 h5 <;>
      first
        | exact (Bool.false_ne_true h).elim
        | exact ⟨h4.1, h4.2.1, by simpa using h4.2.2⟩
        | exact (Bool.false_ne_true ((updateMain_entered _ w dt u).symm.trans h)).elim

/-- A step that enters the transition establishes the invariant. -/
theorem applyOp_entered_inv (b : Boss) (op : Op)
    (h : (applyOp b op).entered = true) : TransInv (applyOp b op).boss := by
  cases op with
  | hit a => exact (Bool.false_ne_true h).elim
  | stunFor d => exact (Bool.false_ne_true h).elim
  | tick dt w u playing =>
    dsimp only [applyOp, Boss.update] at h ⊢
    split_ifs at h ⊢ with h1 h2 h3 h4 h5 <;>
      first
        | exact (Bool.false_ne_true h).elim
        | exact updatePhaseTransition_inv _ dt rfl
        | exact (Bool.false_ne_true ((updateMain_entered _ w dt u).symm.trans h)).elim

/-- Every environment step preserves the invariant. -/
theorem applyOp_transInv (b : Boss) (op : Op) (hinv : TransInv b) :
    TransInv (applyOp b op).boss := by
  cases op with
  | hit a =>
    unfold TransInv at hinv ⊢
    simpa [applyOp] using hinv
  | stunFor d =>
    unfold TransInv at hinv ⊢
    simpa [applyOp] using hinv
  | tick dt w u playing =>
    dsimp only [applyOp, Boss.update]
    split_ifs with h1 h2 h3 h4 h5 <;>
      first
        | exact hinv
        | exact hinv.elim (fun h => ((h4.2.2) h).elim) (fun h => (h h4.1).elim)
        | exact updatePhaseTransition_inv _ dt h5
        | exact hinv.imp
            (fun h =>
              ((updateMain_phaseFields (b.decCooldowns dt) w dt u).2.1).trans h)
            (fun h hq =>
              h (((updateMain_phaseFields
                (b.decCooldowns dt) w dt u).1).symm.trans hq))

theorem transCount_zero (b : Boss) (ops : List Op) (hinv : TransInv b) :
    transCount b ops = 0 := by
  induction ops generalizing b with
  | nil => rfl
  | cons op rest ih =>
    have hnot : (applyOp b op).entered = false := by
      cases he : (applyOp b op).entered
      · rfl
      · obtain ⟨h1, _, h3⟩ := applyOp_entered b op he
        cases hinv with
        | inl h => rw [h3] at h; exact (Bool.false_ne_true h).elim
        | inr h => exact (h h1).elim
    have hrest := ih (applyOp b op).boss (applyOp_transInv b op hinv)
    simp [transCount, hnot, hrest]

theorem transCount_le_one (b : Boss) (ops : List Op) : transCount b ops ≤ 1 := by
  induction ops generalizing b with
  | nil => exact Nat.zero_le 1
  | cons op rest ih =>
    cases he : (applyOp b op).entered with
    | false => simpa [transCount, he] using ih (applyOp b op).boss
    | true =>
      have h0 := transCount_zero (applyOp b op).boss rest
        (applyOp_entered_inv b op he)
      simp [transCount, he, h0]

theorem updatePhaseTransition_slimes (b : Boss) (dt : ℚ) :
    ((b.updatePhaseTransition dt).2 = [] ∧
      (b.updatePhaseTransition dt).1.spawnedAdds = b.spawnedAdds) ∨
    (b.spawnedAdds = false ∧
      (b.updatePhaseTransition dt).1.spawnedAdds = true ∧
      (b.updatePhaseTransition dt).2.length = 4) := by
  simp only [Boss.updatePhaseTransition]
  split_ifs with h1 h2 <;>
    first
      | exact Or.inl ⟨rfl, rfl⟩
      | exact Or.inr ⟨by simpa using h2, rfl, rfl⟩

/-- Each step either spawns nothing and keeps `spawnedAdds`, or spawns
exactly 4 adds, with `spawnedAdds` going from false to true. -/
theorem applyOp_slimes (b : Boss) (op : Op) :
    ((applyOp b op).slimes = [] ∧
      (applyOp b op).boss.spawnedAdds = b.spawnedAdds) ∨
    (b.spawnedAdds = false ∧ (applyOp b op).boss.spawnedAdds = true ∧
      (applyOp b op).slimes.length = 4) := by
  cases op with
  | hit a => exact Or.inl ⟨rfl, by simp [applyOp]⟩
  | stunFor d => exact Or.inl ⟨rfl, rfl⟩
  | tick dt w u playing =>
    dsimp only [applyOp, Boss.update]
    split_ifs with h1 h2 h3 h4 h5 <;>
      first
        | exact Or.inl ⟨rfl, rfl⟩
        | exact updatePhaseTransition_slimes _ dt
        | exact Or.inl ⟨updateMain_slimes _ w dt u,
            (updateMain_phaseFields (b.decCooldowns dt) w dt u).2.2⟩

theorem addsCount_bound (b : Boss) (ops : List Op) :
    addsCount b ops ≤ if b.spawnedAdds = true then 0 else 4 := by
  induction ops generalizing b with
  | nil => simp [addsCount]
  | cons op rest ih =>
    have hrest := ih (applyOp b op).boss
    cases applyOp_slimes b op with
    | inl h =>
      rw [h.2] at hrest
      calc addsCount b (op :: rest)
          = (applyOp b op).slimes.length + addsCount (applyOp b op).boss rest :=
            rfl
        _ ≤ 0 + (if b.spawnedAdds = true then 0 else 4) := by
            rw [h.1]; simpa using hrest
        _ = if b.spawnedAdds = true then 0 else 4 := by simp
    | inr h =>
      rw [h.2.1] at hrest
      simp only [if_pos rfl] at hrest
      calc addsCount b (op :: rest)
          = (applyOp b op).slimes.length + addsCount (applyOp b op).boss rest :=
            rfl
        _ ≤ 4 + 0 := Nat.add_le_add (le_of_eq h.2.2) hrest
        _ ≤ if b.spawnedAdds = true then 0 else 4 := by simp [h.1]

/-! ## Per-landing hit accounting for the BOUNCE attack

The correctness of the `bounceHits` guard is captured by `FlagsOK pre
post evs`: the damage events `evs` of one step hit each landing at most
once (and not at all if its flag was already set), every landing that
was hit has its flag set afterwards, flags are monotone, and the flag
array keeps its length. -/

theorem getD_set_true (l : List Bool) (i j : ℕ)
    (h : l.getD i false = true) : (l.set j true).getD i false = true := by
  rcases eq_or_ne j i with rfl | hne
  · by_cases hj : j < l.length
    · simp [List.getD_eq_getElem?_getD, List.getElem?_set_self, hj]
    · rw [List.set_eq_of_length_le (le_of_not_lt hj)]
      exact h
  · simpa [List.getD_eq_getElem?_getD, List.getElem?_set_ne hne] using h

theorem getD_set_self_true (l : List Bool) (j : ℕ) (hj : j < l.length) :
    (l.set j true).getD j false = true := by
  simp [List.getD_eq_getElem?_getD, List.getElem?_set_self, hj]

theorem countBounceHit_append (i : ℕ) (e1 e2 : List DmgEvent) :
    countBounceHit i (e1 ++ e2) =
      countBounceHit i e1 + countBounceHit i e2 := by
  simp [countBounceHit, List.filter_append]

theorem countBounceHit_pos_mem (i : ℕ) (evs : List DmgEvent)
    (h : 0 < countBounceHit i evs) : DmgEvent.bounceHit i ∈ evs := by
  unfold countBounceHit at h
  rw [List.length_pos] at h
  obtain ⟨x, hx⟩ := List.exists_mem_of_ne_nil _ h
  have := List.mem_filter.mp hx
  have hxe : x = DmgEvent.bounceHit i := by simpa using this.2
  exact hxe ▸ this.1

theorem countBounceHit_single_ne (i : ℕ) (n : AttackName) :
    countBounceHit i [DmgEvent.attackHit n] = 0 := by
  simp [countBounceHit]

def FlagsOK (pre post : List Bool) (evs : List DmgEvent) : Prop :=
  (∀ i, countBounceHit i evs ≤ (if pre.getD i false = true then 0 else 1)) ∧
  (∀ i, DmgEvent.bounceHit i ∈ evs → post.getD i false = true) ∧
  (∀ i, pre.getD i false = true → post.getD i false = true) ∧
  post.length = pre.length

theorem FlagsOK.nil (l : List Bool) : FlagsOK l l [] := by
  refine ⟨fun i => ?_, fun i h => absurd h (List.not_mem_nil _), fun i h => h, rfl⟩
  simp only [countBounceHit, List.filter_nil, List.length_nil]
  split <;> simp

theorem FlagsOK.comp {l1 l2 l3 : List Bool} {e1 e2 : List DmgEvent}
    (h1 : FlagsOK l1 l2 e1) (h2 : FlagsOK l2 l3 e2) :
    FlagsOK l1 l3 (e1 ++ e2) := by
  obtain ⟨c1, m1, o1, n1⟩ := h1
  obtain ⟨c2, m2, o2, n2⟩ := h2
  refine ⟨fun i => ?_, fun i h => ?_, fun i h => o2 i (o1 i h), n2.trans n1⟩
  · rw [countBounceHit_append]
    by_cases hf : l1.getD i false = true
    · have hc1 : countBounceHit i e1 = 0 := by
        have h' := c1 i
        rw [if_pos hf] at h'
        exact Nat.le_zero.mp h'
      have hc2 : countBounceHit i e2 = 0 := by
        have h' := c2 i
        rw [if_pos (o1 i hf)] at h'
        exact Nat.le_zero.mp h'
      simp [hc1, hc2, hf]
    · rcases Nat.eq_zero_or_pos (countBounceHit i e1) with hz | hp
      · have hc2 : countBounceHit i e2 ≤ 1 := by
          refine le_trans (c2 i) ?_
          split <;> simp
        simp only [hz, Nat.zero_add, if_neg hf]
        exact hc2
      · have hmem := countBounceHit_pos_mem i e1 hp
        have hl2 : l2.getD i false = true := m1 i hmem
        have hc2 : countBounceHit i e2 = 0 := by
          have h' := c2 i
          rw [if_pos hl2] at h'
          exact Nat.le_zero.mp h'
        have hc1 : countBounceHit i e1 ≤ 1 := by
          have h' := c1 i
          rw [if_neg hf] at h'
          exact h'
        simp only [hc2, Nat.add_zero, if_neg hf]
        exact hc1
  · rw [List.mem_append] at h
    rcases h with h | h
    · exact o2 i (m1 i h)
    · exact m2 i h

theorem FlagsOK.setOnly (l : List Bool) (idx : ℕ) :
    FlagsOK l (l.set idx true) [] := by
  refine ⟨fun i => ?_, fun i h => absurd h (List.not_mem_nil _),
    fun i h => getD_set_true l i idx h, List.length_set l idx true⟩
  simp only [countBounceHit, List.filter_nil, List.length_nil]
  split <;> simp

theorem FlagsOK.single (l : List Bool) (idx : ℕ) (hidx : idx < l.length)
    (hflag : l.getD idx false = false) :
    FlagsOK l (l.set idx true) [DmgEvent.bounceHit idx] := by
  refine ⟨fun i => ?_, fun i h => ?_,
    fun i h => getD_set_true l i idx h, List.length_set l idx true⟩
  · rcases eq_or_ne i idx with rfl | hne
    · rw [hflag]
      simp [countBounceHit]
    · have hz : countBounceHit i [DmgEvent.bounceHit idx] = 0 := by
        simp [countBounceHit, (hne.symm : idx ≠ i)]
      rw [hz]
      exact Nat.zero_le _
  · have hi : i = idx := by
      have h' : DmgEvent.bounceHit i = DmgEvent.bounceHit idx := by
        simpa using h
      injection h'
    subst hi
    exact getD_set_self_true l i hidx

theorem FlagsOK.attackOnly (l : List Bool) (n : AttackName) :
    FlagsOK l l [DmgEvent.attackHit n] := by
  refine ⟨fun i => ?_, fun i h => ?_, fun i h => h, rfl⟩
  · rw [countBounceHit_single_ne]
    exact Nat.zero_le _
  · exact absurd (by simpa using h) (fun hf : DmgEvent.attackHit n =
      DmgEvent.bounceHit i => DmgEvent.noConfusion hf)

theorem checkBounceDamage_flagsOK (b : Boss) (w : Warrior) (idx : ℕ)
    (hidx : idx < b.bounceHits.length) :
    FlagsOK b.bounceHits (b.checkBounceDamage w idx).1.bounceHits
      (b.checkBounceDamage w idx).2.2 := by
  simp only [Boss.checkBounceDamage]
  cases hflag : b.bounceHits.getD idx false with
  | true => simp only [hflag]; exact FlagsOK.nil _
  | false =>
    cases hpos : b.bouncePositions.get? idx with
    | none => simp only [hflag, hpos]; exact FlagsOK.nil _
    | some landPos =>
      by_cases h2 : Vec3.distSq w.position landPos < 4 ^ 2 <;>
        by_cases hact : w.parryIsActive = true <;>
          simp [hflag, hpos, h2, hact, Warrior.tryParryBoss] <;>
        first
          | exact FlagsOK.nil _
          | exact FlagsOK.setOnly _ idx
          | exact FlagsOK.single _ idx hidx hflag

theorem dealAttackDamage_flagsOK (b : Boss) (w : Warrior) :
    FlagsOK b.bounceHits (b.dealAttackDamage w).1.bounceHits
      (b.dealAttackDamage w).2.2.2 := by
  simp only [Boss.dealAttackDamage]
  cases hca : b.currentAttack with
  | none => exact FlagsOK.nil _
  | some n =>
    by_cases hact : w.parryIsActive = true <;>
      cases n <;>
        simp [hact, Warrior.tryParryBoss] <;>
          (try split_ifs) <;>
            (try simp) <;>
        first
          | exact FlagsOK.nil _
          | exact FlagsOK.attackOnly _ _

theorem executeAttack_flagsOK (b : Boss) (w : Warrior)
    (hlen : b.bounceHits.length = 3) :
    FlagsOK b.bounceHits (b.executeAttack w).1.bounceHits
      (b.executeAttack w).2.2.2 := by
  simp only [Boss.executeAttack]
  cases hca : b.currentAttack with
  | none =>
    dsimp only
    split_ifs with h1
    · exact dealAttackDamage_flagsOK _ w
    · exact FlagsOK.nil _
  | some n =>
    cases n with
    | BOUNCE =>
      dsimp only
      split_ifs with hnew
      · have hcb : b.currentBounce < b.bounceHits.length := by
          have hle : (b.currentBounce : ℤ) < 2 :=
            lt_of_lt_of_le hnew (min_le_left _ _)
          have hn : b.currentBounce < 2 := by exact_mod_cast hle
          omega
        split <;> split <;> exact checkBounceDamage_flagsOK b w _ hcb
      · split <;> exact FlagsOK.nil _
    | WAVE =>
      dsimp only
      split_ifs with h1
      · exact dealAttackDamage_flagsOK _ w
      · exact FlagsOK.nil _
    | SLAM =>
      dsimp only
      split_ifs with h1
      · exact dealAttackDamage_flagsOK _ w
      · exact FlagsOK.nil _
    | SHOCKWAVE =>
      dsimp only
      split_ifs with h1
      · exact dealAttackDamage_flagsOK _ w
      · exact FlagsOK.nil _

theorem finishAttack_flagsOK (b : Boss) (w : Warrior)
    (hlen : b.bounceHits.length = 3) :
    FlagsOK b.bounceHits (b.finishAttack w).1.bounceHits
      (b.finishAttack w).2.2.2 := by
  simp only [Boss.finishAttack]
  split_ifs with h1
  · split <;> exact checkBounceDamage_flagsOK b w 2 (by omega)
  · exact FlagsOK.nil _

theorem updateAttack_flagsOK (b : Boss) (w : Warrior) (dt : ℚ)
    (hlen : b.bounceHits.length = 3) :
    FlagsOK b.bounceHits (b.updateAttack w dt).1.bounceHits
      (b.updateAttack w dt).2.2.2 := by
  simp only [Boss.updateAttack]
  cases hsub : b.attackSub with
  | telegraph =>
    cases hca : b.currentAttack with
    | none => exact FlagsOK.nil _
    | some n =>
      dsimp only
      split_ifs <;> exact FlagsOK.nil _
  | execute =>
    dsimp only
    split_ifs with h1
    · have he := executeAttack_flagsOK { b with attackTimer := b.attackTimer - dt, attackSub := AttackSub.execute } w hlen
      have hf := finishAttack_flagsOK (({ b with attackTimer := b.attackTimer - dt, attackSub := AttackSub.execute } : Boss).executeAttack w).1 (({ b with attackTimer := b.attackTimer - dt, attackSub := AttackSub.execute } : Boss).executeAttack w).2.1 (he.2.2.2.trans hlen)
      exact he.comp hf
    · exact executeAttack_flagsOK _ w hlen
  | idle => exact FlagsOK.nil _

theorem updatePhaseTransition_bounceHits (b : Boss) (dt : ℚ) :
    (b.updatePhaseTransition dt).1.bounceHits = b.bounceHits := by
  simp only [Boss.updatePhaseTransition]
  split_ifs <;> rfl

theorem updateMain_flagsOK (b : Boss) (w : Warrior) (dt : ℚ) (u : ℚ × ℚ)
    (hsub : b.attackSub ≠ AttackSub.idle)
    (hlen : b.bounceHits.length = 3) :
    FlagsOK b.bounceHits (b.updateMain w dt u).boss.bounceHits
      (b.updateMain w dt u).events := by
  dsimp only [Boss.updateMain]
  split_ifs <;>
    first
      | exact updateAttack_flagsOK _ w dt hlen
      | exact absurd (not_not.mp (by assumption)) hsub

/-- One environment step during a live attack instance neither
double-counts a landing nor clears a hit flag. -/
theorem applyOp_flagsOK (b : Boss) (op : Op)
    (hsub : b.attackSub ≠ AttackSub.idle)
    (hlen : b.bounceHits.length = 3) :
    FlagsOK b.bounceHits (applyOp b op).boss.bounceHits
      (applyOp b op).events := by
  cases op with
  | hit a =>
    dsimp only [applyOp]
    rw [Boss.takeDamage_bounceHits]
    exact FlagsOK.nil _
  | stunFor d => exact FlagsOK.nil _
  | tick dt w u playing =>
    dsimp only [applyOp, Boss.update]
    split_ifs with h1 h2 h3 h4 h5 <;>
      first
        | exact FlagsOK.nil _
        | (rw [updatePhaseTransition_bounceHits]; exact FlagsOK.nil _)
        | exact updateMain_flagsOK _ w dt u hsub hlen

theorem instRun_count (b : Boss) (ops : List Op) :
    b.attackSub ≠ AttackSub.idle → b.bounceHits.length = 3 → ∀ i,
      countBounceHit i (instRun b ops) ≤
        (if b.bounceHits.getD i false = true then 0 else 1) := by
  induction ops generalizing b with
  | nil =>
    intro _ _ i
    have h0 : countBounceHit i (instRun b []) = 0 := rfl
    rw [h0]
    exact Nat.zero_le _
  | cons op rest ih =>
    intro hsub hlen i
    obtain ⟨cnt, mem, mono, len⟩ := applyOp_flagsOK b op hsub hlen
    simp only [instRun]
    by_cases hidle : (applyOp b op).boss.attackSub = AttackSub.idle
    · rw [if_pos hidle]
      exact cnt i
    · rw [if_neg hidle]
      rw [countBounceHit_append]
      have ih' := ih (applyOp b op).boss hidle (len.trans hlen) i
      by_cases hf : b.bounceHits.getD i false = true
      · have hc0 : countBounceHit i (applyOp b op).events = 0 := by
          have hc := cnt i
          rw [if_pos hf] at hc
          exact Nat.le_zero.mp hc
        have hfp : (applyOp b op).boss.bounceHits.getD i false = true := mono i hf
        rw [if_pos hf]
        rw [if_pos hfp] at ih'
        omega
      · rw [if_neg hf]
        rcases Nat.eq_zero_or_pos (countBounceHit i (applyOp b op).events) with h0 | hpos
        · have hle1 : countBounceHit i (instRun (applyOp b op).boss rest) ≤ 1 :=
            le_trans ih' (by split <;> omega)
          omega
        · have hmem := countBounceHit_pos_mem i _ hpos
          have hfp : (applyOp b op).boss.bounceHits.getD i false = true := mem i hmem
          have h1 : countBounceHit i (applyOp b op).events ≤ 1 := by
            have hc := cnt i
            rw [if_neg hf] at hc
            exact hc
          have h2 : countBounceHit i (instRun (applyOp b op).boss rest) = 0 := by
            rw [if_pos hfp] at ih'
            exact Nat.le_zero.mp ih'
          omega

theorem instStates_mono (b : Boss) (ops : List Op) :
    b.attackSub ≠ AttackSub.idle → b.bounceHits.length = 3 → ∀ i,
      b.bounceHits.getD i false = true → ∀ b' ∈ instStates b ops,
        b'.bounceHits.getD i false = true := by
  induction ops generalizing b with
  | nil =>
    intro _ _ i _ b' hb'
    exact absurd hb' (List.not_mem_nil _)
  | cons op rest ih =>
    intro hsub hlen i hf b' hb'
    obtain ⟨cnt, mem, mono, len⟩ := applyOp_flagsOK b op hsub hlen
    simp only [instStates] at hb'
    split_ifs at hb' with hidle
    · rw [List.mem_singleton] at hb'
      subst hb'
      exact mono i hf
    · rcases List.mem_cons.mp hb' with rfl | htl
      · exact mono i hf
      · exact ih (applyOp b op).boss hidle (len.trans hlen) i (mono i hf) b' htl

/-! ## Concrete states used by closed counterexamples and witnesses -/

def wActive : Warrior :=
  { mkWarrior with parryIsActive := true, parryActiveTime := (1 / 10) }

def wActiveLate : Warrior :=
  { mkWarrior with parryIsActive := true, parryActiveTime := (3 / 10) }

def wAt12 : Warrior := { mkWarrior with position := ⟨12, 0, 0⟩ }

def wAt6 : Warrior := { mkWarrior with position := ⟨6, 0, 0⟩ }

def wAt6Active : Warrior := { wAt6 with parryIsActive := true }

def wRing : Warrior := { mkWarrior with position := ⟨4, 0, 0⟩ }

def wRingActive : Warrior := { wRing with parryIsActive := true }

def wCenter : Warrior := { mkWarrior with position := ⟨1, 0, 0⟩ }

def wOutside : Warrior := { mkWarrior with position := ⟨7, 0, 0⟩ }

def bossShock : Boss :=
  { mkBoss 0 0 with
      currentAttack := some AttackName.SHOCKWAVE
      attackSub := AttackSub.execute
      attackTimer := (3 / 10)
      attackHitPending := true }

def bossStunned : Boss := { mkBoss 0 0 with stunTime := 1, cooldownBOUNCE := 5 }

def bossLow : Boss := { mkBoss 0 0 with health := 700 }

def bossTrans : Boss :=
  { mkBoss 0 0 with
      health := 700
      phaseTransitioning := true
      phaseTransitionTimer := (3 / 2) }

def bossBounceExec : Boss :=
  { mkBoss 0 0 with
      currentAttack := some AttackName.BOUNCE
      attackSub := AttackSub.execute
      attackTimer := (6 / 5)
      bouncePositions := calcBouncePositions ⟨0, 0, 0⟩ (1, 0)
      bounceStartPos := ⟨0, 0, 0⟩ }

/-! # Theorems -/

/-- C8 counterexample: the claim states that `stun(d)` sets
`stunRemaining = max(stunRemaining, d)`, so a shorter stun never reduces
a longer one.  The code (enemy.js 183-185) assigns unconditionally:
stunning an enemy that has 2 s of stun left for (1 / 2) s leaves (1 / 2) s,
not `max 2 (1 / 2) = 2`. -/
theorem C8_counterexample :
    (((mkEnemy 0 0).stun 2).stun (1 / 2)).stunTime ≠
      max (((mkEnemy 0 0).stun 2).stunTime) (1 / 2) := by
  have h1 : (((mkEnemy 0 0).stun 2).stun (1 / 2)).stunTime = 1 / 2 := rfl
  have h2 : ((mkEnemy 0 0).stun 2).stunTime = 2 := rfl
  rw [h1, h2, max_eq_left (by norm_num : (1 / 2 : ℚ) ≤ 2)]
  norm_num

/-- C8 amended: `stun(duration)` overwrites the stun timer with the
given duration unconditionally (`this.stunTime = duration`), changing
nothing else; a shorter stun therefore replaces a longer one. -/
theorem C8_stun_assigns (e : Enemy) (d : ℚ) :
    (e.stun d).stunTime = d ∧ e.stun d = { e with stunTime := d } :=
  ⟨rfl, rfl⟩

/-- C9 counterexample: the claim states health stays in
`[0, maxHealth]` after every operation for every combatant; but
`Enemy.takeDamage` (enemy.js 158-181) never clamps, so a fresh base
enemy (100 health) taking 103 damage is left at health `-3`. -/
theorem C9_counterexample :
    ((mkEnemy 0 0).takeDamage 103).health < 0 := by
  norm_num [Enemy.takeDamage, Enemy.die, mkEnemy]

/-- C9 amended: the player's health is clamped — `takeDamage` floors it
at 0 (player.js 824-827) and the potion heal caps it at `maxHealth`
(player.js 788) — but an enemy's health is not clamped:
`Enemy.takeDamage` subtracts exactly, so a killing blow leaves a
negative value (the enemy is merely marked dead). -/
theorem C9_health_bounds :
    (∀ (w : Warrior) (amount : ℚ), 0 ≤ w.health → 0 ≤ amount →
        0 ≤ (w.takeDamage amount).1.health ∧
        (w.takeDamage amount).1.health ≤ w.health) ∧
    (∀ w : Warrior, w.health ≤ w.maxHealth →
        (w.usePotion).1.health ≤ w.maxHealth) ∧
    (∀ (e : Enemy) (amount : ℚ),
        (e.takeDamage amount).health = e.health - amount ∧
        (e.health - amount ≤ 0 → (e.takeDamage amount).isAlive = false)) := by
  refine ⟨?_, ?_, ?_⟩
  · intro w amount hw ha
    simp only [Warrior.takeDamage]
    split_ifs with hp hd
    · exact ⟨hw, le_rfl⟩
    · refine ⟨le_rfl, hw⟩
    · refine ⟨?_, ?_⟩ <;> dsimp only <;> linarith
  · intro w hw
    simp only [Warrior.usePotion]
    split_ifs with h1
    · exact hw
    · simp
  · intro e amount
    simp only [Enemy.takeDamage, Enemy.die]
    split_ifs with h'
    · exact ⟨rfl, fun _ => rfl⟩
    · exact ⟨rfl, fun h => absurd h h'⟩

/-- C9 witness: the amended statement at concrete inputs. -/
theorem C9_health_bounds_witness :
    (0 ≤ (mkWarrior.takeDamage 103).1.health ∧
      (mkWarrior.takeDamage 103).1.health ≤ mkWarrior.health) ∧
    (mkWarrior.usePotion).1.health ≤ mkWarrior.maxHealth ∧
    ((mkEnemy 0 0).takeDamage 103).health = (mkEnemy 0 0).health - 103 := by
  have h := C9_health_bounds
  exact ⟨h.1 mkWarrior 103 (by norm_num [mkWarrior]) (by norm_num),
         h.2.1 mkWarrior (by norm_num [mkWarrior]),
         (h.2.2 (mkEnemy 0 0) 103).1⟩

/-- C10: while the warrior's parry stance is active, `takeDamage`
(player.js 804-828) returns before doing anything: health is unchanged,
`die()` cannot be invoked, and the stance itself is untouched — it is
consumed only by an explicit `tryParry` query, which deactivates it. -/
theorem C10_parry_stance_blocks (w : Warrior) (amount : ℚ)
    (h : w.parryIsActive = true) :
    w.takeDamage amount = (w, false) ∧
    (∀ a : Enemy, ((w.tryParryEnemy a).1.parryIsActive = false ∧
      (w.tryParryEnemy a).2.2 = true)) := by
  constructor
  · unfold Warrior.takeDamage
    simp [h]
  · intro a
    unfold Warrior.tryParryEnemy
    simp [h]

/-- C10 witness. -/
theorem C10_parry_stance_blocks_witness :
    wActive.takeDamage 1000 = (wActive, false) ∧
    (wActive.tryParryEnemy (mkEnemy 0 0)).1.parryIsActive = false :=
  ⟨(C10_parry_stance_blocks wActive 1000 (by decide)).1,
   ((C10_parry_stance_blocks wActive 1000 (by decide)).2 (mkEnemy 0 0)).1⟩

/-- C6: evaluation of the SHOCKWAVE resolution (enemy.js 1293-1332) at
the failing input.  With the defender at distance 4 (inside the ring
`2 ≤ d < 6`) and no parry stance, the defender's entire post-state is
the pre-state with 20 less health — no stun is applied, because
`player.applyStun` does not exist on any player class, so the guarded
call `if (player.applyStun) player.applyStun(attack.stunDuration)` does
nothing, contradicting the claim's "stunned for its configured
stunDuration ((3 / 2)s)".  The remaining parts of the claim hold: inside
the safe center (distance 1) and outside the ring (distance 7) no
damage is applied, and an active stance negates the damage while being
consumed. -/
theorem C6_shockwave_resolution :
    (bossShock.dealAttackDamage wRing).2.1 = { wRing with health := 80 } ∧
    (bossShock.dealAttackDamage wRing).2.2.2 =
      [DmgEvent.attackHit AttackName.SHOCKWAVE] ∧
    (bossShock.dealAttackDamage wCenter).2.1 = wCenter ∧
    (bossShock.dealAttackDamage wOutside).2.1 = wOutside ∧
    (bossShock.dealAttackDamage wRingActive).2.1 =
      { wRingActive with parryIsActive := false } := by
  refine ⟨?_, ?_, ?_, ?_, ?_⟩ <;>
    norm_num [Boss.dealAttackDamage, Warrior.tryParryBoss, Warrior.takeDamage,
      Boss.takeDamage, Boss.stun, attackType, bossShock, wRing, wRingActive,
      wCenter, wOutside, mkBoss, mkWarrior, Vec3.distSq, firePool]

/-- C5 counterexample: the claim states that every ground-hazard
0.5-second tick first queries the parry contract on the defender; the
source's tick (game.js 655-665) calls `player.takeDamage` directly and
never queries `tryParry`.  Observable difference at a concrete input
(warrior standing on a fresh fire pool with an active parry stance, one
0.5 s step): a tick that queried the contract would consume the active
stance, but the code leaves the stance active. -/
theorem C5_counterexample :
    ((hazardStep (firePool ⟨0, 0, 0⟩) wActive (1 / 2)).2.parryIsActive = true) ∧
    ((specHazardStep (firePool ⟨0, 0, 0⟩) wActive (1 / 2)).2.parryIsActive
      = false) := by
  constructor <;>
    norm_num [hazardStep, specHazardStep, firePool, wActive, mkWarrior,
      Warrior.takeDamage, Vec3.distSq]

/-- C5 amended: melee `tryAttack`, every boss attack resolution and
every bounce landing query the parry contract on the defender before
applying damage, abort the damage on success and still consume the
attacker's cooldown (the melee cooldown is set in both branches; a boss
attack's cooldown was already consumed at trigger time).  Ground-hazard
ticks do not query the contract: they call `takeDamage` directly, which
for the warrior is a no-op while the stance is active — the damage is
still aborted, but the stance is left entirely unconsumed. -/
theorem C5_parry_gating :
    (∀ (e : Enemy) (w : Warrior), e.attackCooldown ≤ 0 → e.stunTime ≤ 0 →
        w.parryIsActive = true →
        (e.tryAttack w).2.2 = false ∧
        (e.tryAttack w).2.1.health = w.health ∧
        (e.tryAttack w).2.1.parryIsActive = false ∧
        (e.tryAttack w).1.attackCooldown = e.attackCooldownMax) ∧
    (∀ (b : Boss) (w : Warrior), w.parryIsActive = true →
        (b.dealAttackDamage w).2.1.health = w.health) ∧
    (∀ (b : Boss) (w : Warrior) (i : ℕ), w.parryIsActive = true →
        (b.checkBounceDamage w i).2.1.health = w.health) ∧
    (∀ (h : Hazard) (w : Warrior) (dt : ℚ), w.parryIsActive = true →
        (hazardStep h w dt).2 = w) := by
  refine ⟨?_, ?_, ?_, ?_⟩
  · intro e w hcd hst hact
    have hguard : ¬ (0 < e.attackCooldown ∨ 0 < e.stunTime) := by
      push_neg
      exact ⟨hcd, hst⟩
    simp [Enemy.tryAttack, Warrior.tryParryEnemy, if_neg hguard, hact]
  · intro b w hact
    simp only [Boss.dealAttackDamage]
    cases b.currentAttack with
    | none => rfl
    | some n =>
      simp only [Warrior.tryParryBoss, hact]
      split_ifs <;> simp_all
  · intro b w i hact
    simp only [Boss.checkBounceDamage]
    cases hflag : b.bounceHits.getD i false with
    | true => simp [hflag]
    | false =>
      cases hpos : b.bouncePositions.get? i with
      | none => simp [hflag, hpos]
      | some landPos =>
        by_cases h2 : Vec3.distSq w.position landPos < 4 ^ 2
        · simp [hflag, hpos, h2, Warrior.tryParryBoss, hact]
        · simp [hflag, hpos, h2]
  · intro h w dt hact
    simp only [hazardStep, Warrior.takeDamage, hact]
    split_ifs <;> rfl

/-- C5 witness for the amended statement, at concrete inputs. -/
theorem C5_parry_gating_witness :
    ((mkEnemy 0 0).tryAttack wActive).2.1.health = wActive.health ∧
    (bossShock.dealAttackDamage wRingActive).2.1.health = wRingActive.health ∧
    (bossBounceExec.checkBounceDamage wAt6Active 0).2.1.health =
      wAt6Active.health ∧
    ((hazardStep (firePool ⟨0, 0, 0⟩) wActive (1 / 2)).2 = wActive) := by
  have h := C5_parry_gating
  refine ⟨(h.1 (mkEnemy 0 0) wActive le_rfl le_rfl rfl).2.1, ?_, ?_, ?_⟩
  · exact h.2.1 bossShock wRingActive rfl
  · exact h.2.2.1 bossBounceExec wAt6Active 0 rfl
  · exact h.2.2.2 (firePool ⟨0, 0, 0⟩) wActive (1 / 2) rfl

/-- C1: the parry contract between a melee attacker and the warrior.
If the stance is active when queried, the query reports success, the
stance is consumed, the defender takes zero damage from the original
attack (`tryAttack` reports no hit and never calls the defender's
`takeDamage`), and the attacker takes `perfectDamage` inside the
perfect sub-window (else `riposteDamage`) and is stunned 1.0 s on a
perfect parry, 0.5 s otherwise.  If the stance is inactive the query
reports failure and the defender takes the full configured
`attackDamage` (clamped at zero health by the player's own death
handling). -/
theorem C1_parry_contract :
    (∀ (e : Enemy) (w : Warrior), e.attackCooldown ≤ 0 → e.stunTime ≤ 0 →
        w.parryIsActive = true →
        (e.tryAttack w).2.2 = false ∧
        (e.tryAttack w).2.1.health = w.health ∧
        (e.tryAttack w).2.1.parryIsActive = false ∧
        (e.tryAttack w).1.health = e.health -
          (if w.parryActiveTime ≤ w.parryPerfectWindow
           then w.parryPerfectDamage else w.parryRiposteDamage) ∧
        (e.tryAttack w).1.stunTime =
          (if w.parryActiveTime ≤ w.parryPerfectWindow then 1 else 1 / 2) ∧
        (e.tryAttack w).1.attackCooldown = e.attackCooldownMax ∧
        (w.tryParryEnemy e).2.2 = true) ∧
    (∀ (e : Enemy) (w : Warrior), e.attackCooldown ≤ 0 → e.stunTime ≤ 0 →
        w.parryIsActive = false →
        (e.tryAttack w).2.2 = true ∧
        (e.tryAttack w).2.1.health =
          (if w.health - e.attackDamage ≤ 0 then 0
           else w.health - e.attackDamage) ∧
        (e.tryAttack w).1.attackCooldown = e.attackCooldownMax) := by
  constructor
  · intro e w hcd hst hact
    have hguard : ¬ (0 < e.attackCooldown ∨ 0 < e.stunTime) := by
      push_neg
      exact ⟨hcd, hst⟩
    simp [Enemy.tryAttack, Warrior.tryParryEnemy, if_neg hguard, hact]
  · intro e w hcd hst hact
    have hguard : ¬ (0 < e.attackCooldown ∨ 0 < e.stunTime) := by
      push_neg
      exact ⟨hcd, hst⟩
    simp [Enemy.tryAttack, Warrior.tryParryEnemy, Warrior.takeDamage,
      if_neg hguard, hact]
    split_ifs <;> simp

/-- C1 witness: an attacker with its cooldown ready queried against an
active stance (perfect window) and against an inactive stance. -/
theorem C1_parry_contract_witness :
    ((mkEnemy 0 0).tryAttack wActive).2.2 = false ∧
    ((mkEnemy 0 0).tryAttack wActive).2.1.health = wActive.health ∧
    ((mkEnemy 0 0).tryAttack mkWarrior).2.2 = true := by
  have h := C1_parry_contract
  exact ⟨(h.1 (mkEnemy 0 0) wActive le_rfl le_rfl rfl).1,
         (h.1 (mkEnemy 0 0) wActive le_rfl le_rfl rfl).2.1,
         (h.2 (mkEnemy 0 0) mkWarrior le_rfl le_rfl rfl).1⟩

/-- C2: the boss's phase transition.  (i) While transitioning, every
`takeDamage` call is a complete no-op on the boss state.  (ii) A step
can enter the transition only when `phase = 1`, health is at or below
half of `maxHealth`, and the boss is not already transitioning.
(iii) Along every trace of updates, damage and stuns, the transition is
entered at most once.  (iv) When the 2-second countdown expires (here:
a tick consuming the remaining timer), `phase` becomes 2, the flag
clears, `spawnedAdds` is set, and exactly 4 pre-aggroed slimes are
spawned at the cardinal offsets `(-8,0), (8,0), (0,-8), (0,8)` from the
boss's current position.  (v) Along every trace, at most 4 adds are
ever spawned in total (none if `spawnedAdds` already holds), so the
adds are never spawned a second time. -/
theorem C2_phase_transition :
    (∀ (b : Boss) (a : ℚ), b.phaseTransitioning = true →
        b.takeDamage a = b) ∧
    (∀ (b : Boss) (op : Op), (applyOp b op).entered = true →
        b.phase = 1 ∧ b.health ≤ b.maxHealth * (1 / 2) ∧
          b.phaseTransitioning = false) ∧
    (∀ (b : Boss) (ops : List Op), transCount b ops ≤ 1) ∧
    (∀ (b : Boss) (w : Warrior) (dt : ℚ) (u : ℚ × ℚ),
        b.isAlive = true → b.stunTime ≤ 0 → b.phaseTransitioning = true →
        b.phaseTransitionTimer ≤ dt → b.spawnedAdds = false →
        (b.update w dt u true).boss.phase = 2 ∧
        (b.update w dt u true).boss.phaseTransitioning = false ∧
        (b.update w dt u true).boss.spawnedAdds = true ∧
        (b.update w dt u true).boss.position = b.position ∧
        (b.update w dt u true).slimes = phase2Adds b.position ∧
        (∀ s ∈ (b.update w dt u true).slimes, s.isAggro = true) ∧
        ((b.update w dt u true).slimes.map
          (fun s => (s.position.x - b.position.x,
                     s.position.z - b.position.z))) =
          [(-8, 0), (8, 0), (0, -8), (0, 8)]) ∧
    (∀ (b : Boss) (ops : List Op),
        addsCount b ops ≤ if b.spawnedAdds = true then 0 else 4) := by
  refine ⟨?_, applyOp_entered, transCount_le_one, ?_, addsCount_bound⟩
  · intro b a ht
    simp [Boss.takeDamage, ht]
  · intro b w dt u ha hs ht htimer hadds
    have hstun : ¬ (0 < (b.decCooldowns dt).stunTime) := not_lt.mpr hs
    have htrig : ¬ ((b.decCooldowns dt).phase = 1 ∧
        (b.decCooldowns dt).health ≤ (b.decCooldowns dt).maxHealth * (1 / 2) ∧
        ¬ (b.decCooldowns dt).phaseTransitioning = true) := by
      intro hcon
      exact hcon.2.2 ht
    have hexp : (({ b.decCooldowns dt with
        phaseTransitionTimer := (b.decCooldowns dt).phaseTransitionTimer - dt }
          : Boss).phaseTransitionTimer ≤ 0) := by
      show b.phaseTransitionTimer - dt ≤ 0
      linarith
    dsimp only [Boss.update]
    rw [if_neg (by simp [ha]), if_neg (by simp), if_neg hstun, if_neg htrig,
      if_pos (show (b.decCooldowns dt).phaseTransitioning = true from ht)]
    simp only [Boss.updatePhaseTransition]
    rw [if_pos hexp, if_pos (by simpa using hadds)]
    refine ⟨rfl, rfl, rfl, rfl, rfl, ?_, ?_⟩
    · intro s hm
      simp only [phase2Adds, mkSlimeEnemy, mkEnemy, List.mem_cons,
        List.mem_singleton] at hm
      rcases hm with h | h | h | h | h <;> first | (subst h; rfl) | cases h
    · simp [phase2Adds, mkSlimeEnemy, mkEnemy]

/-- C2 witness: the conjuncts at concrete states — a transitioning boss
ignores damage; the concrete low-health tick enters the transition with
the trigger conditions holding; and a tick consuming the countdown
spawns the 4 aggroed adds and moves to phase 2. -/
theorem C2_phase_transition_witness :
    bossTrans.takeDamage 100 = bossTrans ∧
    (bossLow.phase = 1 ∧ bossLow.health ≤ bossLow.maxHealth * (1 / 2) ∧
      bossLow.phaseTransitioning = false) ∧
    transCount bossLow
      [Op.tick (1 / 10) wAt12 (1, 0) true, Op.tick 3 wAt12 (1, 0) true] ≤ 1 ∧
    (bossTrans.update wAt12 2 (1, 0) true).boss.phase = 2 ∧
    (bossTrans.update wAt12 2 (1, 0) true).slimes = phase2Adds bossTrans.position ∧
    addsCount bossTrans [Op.tick 2 wAt12 (1, 0) true] ≤ 4 := by
  have h := C2_phase_transition
  have hexp := h.2.2.2.1 bossTrans wAt12 2 (1, 0) rfl le_rfl rfl
    (by norm_num [bossTrans, mkBoss]) rfl
  refine ⟨h.1 bossTrans 100 rfl, ?_, h.2.2.1 bossLow _, hexp.1, hexp.2.2.2.2.1, ?_⟩
  · refine h.2.1 bossLow (Op.tick (1 / 10) wAt12 (1, 0) true) ?_
    norm_num [applyOp, Boss.update, Boss.decCooldowns, bossLow, mkBoss,
      wAt12, mkWarrior]
  · have := h.2.2.2.2 bossTrans [Op.tick 2 wAt12 (1, 0) true]
    simpa [bossTrans, mkBoss] using this

/-- C7 counterexample: the claim states that while stunned the boss's
four per-attack cooldowns are left unchanged by an update call; but the
boss's update (enemy.js 605-610) decrements every positive cooldown
before the stun check (613-618), so a stunned boss with 5 s left on the
BOUNCE cooldown has 4 s after a 1 s stunned tick. -/
theorem C7_counterexample :
    (bossStunned.update mkWarrior 1 (0, 0) true).boss.cooldownBOUNCE ≠
      bossStunned.cooldownBOUNCE := by
  norm_num [Boss.update, Boss.decCooldowns, bossStunned, mkBoss]

/-- C7 amended: for the base enemy the claim holds exactly — a stunned
update changes only the stun timer (the melee cooldown, position, aggro
and health are untouched, enemy.js 80-83).  For the boss, a stunned
update equals the cooldown sweep (each positive per-attack cooldown
decremented by `dt`) plus the stun-timer decrement, and nothing else:
position, aggro, health, phase and the whole attack state are
unchanged, and no adds, hazards or damage events are produced. -/
theorem C7_stun_freezes :
    (∀ (e : Enemy) (dt : ℚ) (p : Vec3) (u : ℚ × ℚ),
        e.isAlive = true → 0 < e.stunTime →
        e.update dt p u = { e with stunTime := e.stunTime - dt }) ∧
    (∀ (b : Boss) (w : Warrior) (dt : ℚ) (u : ℚ × ℚ),
        b.isAlive = true → 0 < b.stunTime →
        b.update w dt u true =
          ⟨{ b.decCooldowns dt with stunTime := b.stunTime - dt },
           w, [], [], [], false⟩) := by
  constructor
  · intro e dt p u ha hs
    simp [Enemy.update, ha, hs]
  · intro b w dt u ha hs
    have h1 : (b.decCooldowns dt).stunTime = b.stunTime := rfl
    simp [Boss.update, ha, h1, hs]

/-- C7 witness: the amended statement at concrete stunned states. -/
theorem C7_stun_freezes_witness :
    ((mkEnemy 0 0).stun 1).update (1 / 2) ⟨0, 0, 0⟩ (0, 0) =
      { (mkEnemy 0 0).stun 1 with
          stunTime := ((mkEnemy 0 0).stun 1).stunTime - 1 / 2 } ∧
    bossStunned.update mkWarrior 1 (0, 0) true =
      ⟨{ bossStunned.decCooldowns 1 with
          stunTime := bossStunned.stunTime - 1 },
       mkWarrior, [], [], [], false⟩ := by
  have h := C7_stun_freezes
  exact ⟨h.1 ((mkEnemy 0 0).stun 1) (1 / 2) ⟨0, 0, 0⟩ (0, 0) rfl (by norm_num),
         h.2 bossStunned mkWarrior 1 (0, 0) rfl
           (by norm_num [bossStunned, mkBoss])⟩

/-- C3: attack selection tests BOUNCE, SHOCKWAVE, SLAM, WAVE in that
fixed order and the first match wins; SHOCKWAVE's trigger resets the
proximity timer; a selection sets the chosen attack's cooldown at
trigger time and enters the Telegraph sub-state with
`attackTimer = telegraphDuration`; and in the concrete scenario of an
idle boss at distance 12 with every cooldown ready, one update tick
selects BOUNCE. -/
theorem C3_attack_selection :
    (∀ (b : Boss) (p : Vec3) (u : ℚ × ℚ) (dSq : ℚ),
        farThreshold ^ 2 ≤ dSq → b.cooldownBOUNCE ≤ 0 →
        b.tryStartAttack p u dSq = (b.startAttack .BOUNCE p u, true)) ∧
    (∀ (b : Boss) (p : Vec3) (u : ℚ × ℚ) (dSq : ℚ),
        ¬ (farThreshold ^ 2 ≤ dSq ∧ b.cooldownBOUNCE ≤ 0) →
        shockwaveChargeTime ≤ b.playerCloseTimer → b.cooldownSHOCKWAVE ≤ 0 →
        b.tryStartAttack p u dSq =
          (Boss.startAttack { b with playerCloseTimer := 0 } .SHOCKWAVE p u,
           true) ∧
        (b.tryStartAttack p u dSq).1.playerCloseTimer = 0) ∧
    (∀ (b : Boss) (p : Vec3) (u : ℚ × ℚ) (dSq : ℚ),
        ¬ (farThreshold ^ 2 ≤ dSq ∧ b.cooldownBOUNCE ≤ 0) →
        ¬ (shockwaveChargeTime ≤ b.playerCloseTimer ∧ b.cooldownSHOCKWAVE ≤ 0) →
        dSq ≤ (attackType .SLAM).range ^ 2 → b.cooldownSLAM ≤ 0 →
        b.tryStartAttack p u dSq = (b.startAttack .SLAM p u, true)) ∧
    (∀ (b : Boss) (p : Vec3) (u : ℚ × ℚ) (dSq : ℚ),
        ¬ (farThreshold ^ 2 ≤ dSq ∧ b.cooldownBOUNCE ≤ 0) →
        ¬ (shockwaveChargeTime ≤ b.playerCloseTimer ∧ b.cooldownSHOCKWAVE ≤ 0) →
        ¬ (dSq ≤ (attackType .SLAM).range ^ 2 ∧ b.cooldownSLAM ≤ 0) →
        dSq ≤ (attackType .WAVE).range ^ 2 → b.cooldownWAVE ≤ 0 →
        b.tryStartAttack p u dSq = (b.startAttack .WAVE p u, true)) ∧
    (∀ (b : Boss) (p : Vec3) (u : ℚ × ℚ) (dSq : ℚ),
        ¬ (farThreshold ^ 2 ≤ dSq ∧ b.cooldownBOUNCE ≤ 0) →
        ¬ (shockwaveChargeTime ≤ b.playerCloseTimer ∧ b.cooldownSHOCKWAVE ≤ 0) →
        ¬ (dSq ≤ (attackType .SLAM).range ^ 2 ∧ b.cooldownSLAM ≤ 0) →
        ¬ (dSq ≤ (attackType .WAVE).range ^ 2 ∧ b.cooldownWAVE ≤ 0) →
        b.tryStartAttack p u dSq = (b, false)) ∧
    (∀ (b : Boss) (n : AttackName) (p : Vec3) (u : ℚ × ℚ),
        (b.startAttack n p u).currentAttack = some n ∧
        (b.startAttack n p u).attackSub = AttackSub.telegraph ∧
        (b.startAttack n p u).attackTimer = (attackType n).telegraphDuration ∧
        (b.startAttack n p u).getCooldown n = (attackType n).cooldown) ∧
    (((mkBoss 0 0).update wAt12 (1 / 100) (1, 0) true).boss.currentAttack =
        some AttackName.BOUNCE ∧
     ((mkBoss 0 0).update wAt12 (1 / 100) (1, 0) true).boss.attackSub =
        AttackSub.telegraph ∧
     ((mkBoss 0 0).update wAt12 (1 / 100) (1, 0) true).boss.attackTimer = 3 / 2 ∧
     ((mkBoss 0 0).update wAt12 (1 / 100) (1, 0) true).boss.cooldownBOUNCE = 8) := by
  refine ⟨?_, ?_, ?_, ?_, ?_, ?_, ?_⟩
  · intro b p u dSq h1 h2
    simp only [Boss.tryStartAttack]
    rw [if_pos ⟨h1, h2⟩]
  · intro b p u dSq hn h1 h2
    simp only [Boss.tryStartAttack]
    rw [if_neg hn, if_pos ⟨h1, h2⟩]
    exact ⟨rfl, rfl⟩
  · intro b p u dSq hn1 hn2 h1 h2
    simp only [Boss.tryStartAttack]
    rw [if_neg hn1, if_neg hn2, if_pos ⟨h1, h2⟩]
  · intro b p u dSq hn1 hn2 hn3 h1 h2
    simp only [Boss.tryStartAttack]
    rw [if_neg hn1, if_neg hn2, if_neg hn3, if_pos ⟨h1, h2⟩]
  · intro b p u dSq hn1 hn2 hn3 hn4
    simp only [Boss.tryStartAttack]
    rw [if_neg hn1, if_neg hn2, if_neg hn3, if_neg hn4]
  · intro b n p u
    cases n <;> exact ⟨rfl, rfl, rfl, rfl⟩
  · refine ⟨?_, ?_, ?_, ?_⟩ <;>
      norm_num [Boss.update, Boss.updateMain, Boss.decCooldowns,
        Boss.tryStartAttack, Boss.startAttack, Boss.setCooldown,
        calcBouncePositions, mkBoss, wAt12, mkWarrior, Vec3.distSq,
        attackType, closeThreshold, farThreshold, shockwaveChargeTime]

/-- C3 witness: the priority cascade at concrete inputs — far with
BOUNCE ready gives BOUNCE; close with SHOCKWAVE charged gives SHOCKWAVE
and resets the proximity timer. -/
theorem C3_attack_selection_witness :
    (mkBoss 0 0).tryStartAttack ⟨12, 0, 0⟩ (1, 0) 144 =
      ((mkBoss 0 0).startAttack .BOUNCE ⟨12, 0, 0⟩ (1, 0), true) ∧
    ({ mkBoss 0 0 with playerCloseTimer := 3, cooldownBOUNCE := 1 } :
        Boss).tryStartAttack ⟨4, 0, 0⟩ (1, 0) 16 =
      (Boss.startAttack
        { ({ mkBoss 0 0 with playerCloseTimer := 3, cooldownBOUNCE := 1 } :
            Boss) with playerCloseTimer := 0 } .SHOCKWAVE ⟨4, 0, 0⟩ (1, 0),
       true) := by
  have h := C3_attack_selection
  constructor
  · exact h.1 (mkBoss 0 0) ⟨12, 0, 0⟩ (1, 0) 144 (by norm_num [farThreshold])
      (by norm_num [mkBoss])
  · exact (h.2.1 _ ⟨4, 0, 0⟩ (1, 0) 16
      (by norm_num [farThreshold])
      (by norm_num [shockwaveChargeTime])
      (by norm_num [mkBoss])).1

/-- C4: within a single BOUNCE attack instance — the boss is mid-attack
(sub-state not idle) carrying its three per-landing hit flags — every
landing index applies damage to the defender at most once over an
arbitrary sequence of environment steps (ticks of any `dt`, including
large steps crossing several bounce sub-intervals at once, interleaved
with incoming hits and stuns), never at all if its flag is already set;
and a landing's hit flag, once set, stays set at every state visited up
to and including the instance's end. -/
theorem C4_bounce_hits_once (b : Boss) (ops : List Op) (i : ℕ)
    (hatk : b.currentAttack = some AttackName.BOUNCE)
    (hsub : b.attackSub ≠ AttackSub.idle)
    (hlen : b.bounceHits.length = 3) :
    (countBounceHit i (instRun b ops) ≤
       (if b.bounceHits.getD i false = true then 0 else 1)) ∧
    (b.bounceHits.getD i false = true → ∀ b' ∈ instStates b ops,
       b'.bounceHits.getD i false = true) :=
  ⟨instRun_count b ops hsub hlen i,
   fun hf b' hb' => instStates_mono b ops hsub hlen i hf b' hb'⟩

/-- C4 witness: the concrete mid-BOUNCE boss, fed one large 1-second
tick (crossing the remaining bounce sub-intervals), damages landing 0 at
most once and keeps any set flag set. -/
theorem C4_bounce_hits_once_witness :
    (countBounceHit 0
        (instRun bossBounceExec [Op.tick 1 wOutside (1, 0) true]) ≤
       (if bossBounceExec.bounceHits.getD 0 false = true then 0 else 1)) ∧
    (bossBounceExec.bounceHits.getD 0 false = true → ∀ b' ∈
        instStates bossBounceExec [Op.tick 1 wOutside (1, 0) true],
       b'.bounceHits.getD 0 false = true) :=
  C4_bounce_hits_once bossBounceExec [Op.tick 1 wOutside (1, 0) true] 0
    rfl (by decide) rfl

end TimeGame
